import Mathlib

/-
Verification of the доc_reader repository: a shallow embedding of the
classification pipeline in src/Doc Classifier/backend/app.py (the serving
variant) and the filing logic of src/Doc Classifier/classifier.py (the
original single-script variant), together with theorems settling the
frozen claims about job processing, progress, cancellation, error
handling and artifact downloads.

Modelling conventions:
- A page image is identified by the oracle outcome its bytes produce, so a
  rendered document is a list of oracle outcomes.
- Filesystem paths are lists of segments relative to the job output root;
  writes are recorded in an append-only list.
- Python floats are modelled by exact rationals; int() truncation on a
  nonnegative value is Int.floor.
- cancel_requested is a one-way flag set asynchronously by the cancel
  endpoint; the worker reads it only at document and page boundaries, so it
  is modelled by the index of the boundary check from which reads return
  true (cancelAt), together with a counter of performed checks.
- time.sleep and mkdir have no modelled state effect.
-/

namespace DocReader

/-- Lifecycle status of a job (app.py JobState.status: queued, running,
done, error, cancelled). -/
inductive Status
  | queued
  | running
  | done
  | error
  | cancelled
deriving DecidableEq, Repr

/-- A successful analysis object returned by the oracle (the JSON dict of
get_groq_analysis). All fields are optional; the pipeline reads them with
defaults via dict.get. document_data carries its serialized form
(json.dumps output). -/
structure Verdict where
  is_receipt : Option Bool := none
  has_stamp : Option Bool := none
  detected_stamp_details : Option String := none
  document_data : Option String := none
deriving DecidableEq, Repr

/-- Outcome of one oracle call as dispatched by process_job, app.py lines
242 to 251: a parsed verdict object, an error dict carrying key __error__,
or a JSON null (analysis is None). -/
inductive OracleResult
  | ok (v : Verdict)
  | err (msg : String)
  | null
deriving DecidableEq, Repr

/-- Result of convert_from_path on one document: the ordered page list, or
an exception that propagates to the top-level handler. -/
inductive RenderResult
  | pages (ps : List OracleResult)
  | raise (msg : String)
deriving DecidableEq, Repr

/-- One input PDF. pdfinfo is the page count reported by
pdfinfo_from_path, info.get with Pages defaulting to 0 folded in; none
models the swallowed per-file exception of app.py lines 188 to 192. -/
structure Doc where
  name : String
  stem : String
  pdfinfo : Option Nat := none
  render : RenderResult
deriving DecidableEq, Repr

/-- One classification row, app.py lines 272 to 280. -/
structure Row where
  source_pdf : String
  page : Nat
  status : String
  is_receipt : Bool
  has_stamp : Bool
  stamp_details : String
  document_data : String
deriving DecidableEq, Repr

/-- Mutable job record (app.py dataclass JobState). job_id and the
absolute directory paths are constants of a run and are kept in JobInput;
cancel_requested is modelled by JobInput.cancelAt. Artifact paths are
segment lists relative to the job directory. -/
structure JobState where
  status : Status := .queued
  progress_pct : ℤ := 0
  message : String := "Queued"
  error : Option String := none
  log : List String := []
  total_pages : Nat := 0
  processed_pages : Nat := 0
  csv_path : Option (List String) := none
  zip_all : Option (List String) := none
  zip_receipts_unstamped : Option (List String) := none
  zip_receipts_stamped : Option (List String) := none
  zip_credit_notes : Option (List String) := none
deriving DecidableEq, Repr

/-- Full state of one process_job run: the shared JobState, the local
all_rows accumulator, the image and document files written under the
output root (relative segment paths), the CSV file contents once written,
the built zip archives with their entry lists, and two observation
instruments: checks counts the cancel_requested reads performed, and
pctTrace records every value progress_pct has held. -/
structure RunSt where
  job : JobState
  all_rows : List Row
  files : List (List String)
  csvFile : Option (List Row)
  zipFiles : List (String × List (List String))
  checks : Nat
  pctTrace : List ℤ
deriving DecidableEq, Repr

/-- Control flow of the worker body: fall through to the next statement,
early return (the cancellation returns), or a propagating Python
exception. -/
inductive Flow
  | cont (s : RunSt)
  | ret (s : RunSt)
  | exn (msg : String) (s : RunSt)
deriving DecidableEq, Repr

/-- The run state carried by a flow outcome. -/
def Flow.state : Flow → RunSt
  | .cont s => s
  | .ret s => s
  | .exn _ s => s

/-- Apply a state transformation to the fall-through outcome only; early
returns and exceptions pass through untouched. -/
def Flow.mapCont (f : RunSt → RunSt) : Flow → Flow
  | .cont s => .cont (f s)
  | .ret s => .ret s
  | .exn m s => .exn m s

/-- Value of the one-way cancel_requested flag as read by the boundary
check number c: true from check number t on. -/
def cancelRequested (cancelAt : Option Nat) (c : Nat) : Bool :=
  match cancelAt with
  | none => false
  | some t => decide (t ≤ c)

/-- Clamp helper of app.py lines 83 to 88: values below 0 become 0, above
100 become 100, otherwise int() truncation (floor on the nonnegative
remaining range). Python float arithmetic is modelled by exact rationals. -/
def safe_pct (x : ℚ) : ℤ :=
  if x < 0 then 0
  else if x > 100 then 100
  else Int.floor x

/-- Bounded append to the job log, app.py lines 76 to 80: past 4000
entries the list is truncated to its last 2000. -/
def job_log (job : JobState) (line : String) : JobState :=
  let log := job.log ++ [line]
  if log.length > 4000 then { job with log := log.drop (log.length - 2000) }
  else { job with log := log }

/-- Lift job_log to the run state. -/
def rlog (s : RunSt) (line : String) : RunSt :=
  { s with job := job_log s.job line }

/-- Assign progress_pct, recording the assigned value in the trace. -/
def setPct (s : RunSt) (v : ℤ) : RunSt :=
  { s with job := { s.job with progress_pct := v }, pctTrace := s.pctTrace ++ [v] }

/-- Filing decision of the serving variant, app.py lines 258 to 267:
destination subdirectory relative to the per-document output directory,
and status label. -/
def process_job_filing (is_receipt has_stamp : Bool) : List String × String :=
  if is_receipt then
    if has_stamp then (["receipts", "stamped"], "STAMPED_RECEIPT")
    else (["receipts", "unstamped"], "UNSTAMPED_RECEIPT")
  else (["credit_notes"], "CREDIT_NOTE")

/-- Filing decision of the original single-script variant, classifier.py
lines 110 to 120. -/
def process_docs_filing (is_receipt has_stamp : Bool) : List String × String :=
  if is_receipt then
    if !has_stamp then (["receipts", "unstamped"], "STAMPED_RECEIPT")
    else (["receipts", "stamped"], "UNSTAMPED_RECEIPT")
  else (["credit_notes"], "CREDIT_NOTE")

/-- The filing decision table written from the words of spec section 4.2,
for comparison with the code. -/
def specFilingTable (is_receipt has_stamp : Bool) : List String × String :=
  if is_receipt && has_stamp then (["receipts", "stamped"], "STAMPED_RECEIPT")
  else if is_receipt && !has_stamp then (["receipts", "unstamped"], "UNSTAMPED_RECEIPT")
  else (["credit_notes"], "CREDIT_NOTE")

/-- The classification row appended for one successfully classified page,
app.py lines 272 to 280, parameterized by the filing decision function. -/
def filedRow (filing : Bool → Bool → List String × String)
    (docName : String) (pageNum : Nat) (v : Verdict) : Row :=
  { source_pdf := docName
    page := pageNum
    status := (filing (v.is_receipt.getD false) (v.has_stamp.getD false)).2
    is_receipt := v.is_receipt.getD false
    has_stamp := v.has_stamp.getD false
    stamp_details := v.detected_stamp_details.getD ("")
    document_data := v.document_data.getD ("\x7b\x7d") }

/-- Body of the per-page loop of process_job, app.py lines 233 to 288,
after the cancellation check: page message, progress update, oracle
dispatch, filing, CSV row, processed counter, second progress update. The
image write is recorded as a path appended to files; time.sleep has no
state effect. -/
def processPage (docName docStem : String) (numPages pageNum : Nat)
    (res : OracleResult) (s : RunSt) : RunSt :=
  let s := { s with job := { s.job with
    message := docName ++ (": page ") ++ toString pageNum ++ ("/") ++ toString numPages } }
  let s :=
    if s.job.total_pages > 0 then
      setPct s (safe_pct ((s.job.processed_pages : ℚ) / (s.job.total_pages : ℚ) * 100))
    else s
  match res with
  | .null =>
      rlog s ("❌ Page " ++ toString pageNum ++ ": analysis returned None, skipped.")
  | .err msg =>
      let s := rlog s ("⚠️ Page " ++ toString pageNum ++ ": Groq error: " ++ msg)
      { s with job := { s.job with processed_pages := s.job.processed_pages + 1 } }
  | .ok v =>
      let is_receipt := v.is_receipt.getD false
      let has_stamp := v.has_stamp.getD false
      let img_filename := ("page_") ++ toString pageNum ++ (".png")
      let fd := process_job_filing is_receipt has_stamp
      let target_path := docStem :: fd.1 ++ [img_filename]
      let s := { s with files := s.files ++ [target_path] }
      let s := rlog s ("  -> Filed page " ++ toString pageNum ++ " as " ++ fd.2)
      let s := { s with all_rows := s.all_rows ++ [({
        source_pdf := docName
        page := pageNum
        status := fd.2
        is_receipt := is_receipt
        has_stamp := has_stamp
        stamp_details := v.detected_stamp_details.getD ("")
        document_data := v.document_data.getD ("\x7b\x7d") } : Row)] }
      let s := { s with job := { s.job with processed_pages := s.job.processed_pages + 1 } }
      if s.job.total_pages > 0 then
        setPct s (safe_pct ((s.job.processed_pages : ℚ) / (s.job.total_pages : ℚ) * 100))
      else s

/-- Per-page loop of process_job, app.py lines 226 to 288: cancellation
check at each page boundary, then the page body. A true check sets status
cancelled and returns from the whole worker. -/
def pagesLoop (cancelAt : Option Nat) (docName docStem : String) (numPages : Nat) :
    List OracleResult → Nat → RunSt → Flow
  | [], _, s => .cont s
  | res :: rest, i, s =>
    let req := cancelRequested cancelAt s.checks
    let s := { s with checks := s.checks + 1 }
    if req then
      let s := { s with job := { s.job with status := .cancelled, message := "Cancelled" } }
      .ret (rlog s ("Cancel requested mid-file. Stopping."))
    else
      pagesLoop cancelAt docName docStem numPages rest (i + 1)
        (processPage docName docStem numPages (i + 1) res s)

/-- Relocation of the source document into its output subdirectory after
all its pages are processed, app.py lines 290 to 292: the move is
recorded as a file appearing at stem slash name under the output root
(its disappearance from the input directory is not modelled). -/
def moveDone (stem nm : String) (s : RunSt) : RunSt :=
  rlog { s with files := s.files ++ [[stem, nm]] } ("✅ Completed: " ++ nm)

/-- Body of the per-document loop of process_job, app.py lines 199 to
292, for one document: cancellation check at the document boundary,
directory creation (no modelled state), rendering (an exception
propagates), the incremental total_pages update guarded by
total_pages == 0, the page loop, then the move of the source PDF into its
output folder. A cont outcome proceeds to the next document. -/
def docStep (cancelAt : Option Nat) (d : Doc) (s : RunSt) : Flow :=
  let req := cancelRequested cancelAt s.checks
  let s := { s with checks := s.checks + 1 }
  if req then
    let s := { s with job := { s.job with status := .cancelled, message := "Cancelled" } }
    .ret (rlog s ("Cancel requested. Stopping."))
  else
    let s := rlog s ("Processing: " ++ d.name)
    match d.render with
    | .raise msg => .exn msg s
    | .pages pages =>
      let s :=
        if s.job.total_pages = 0 then
          { s with job := { s.job with total_pages := s.job.total_pages + pages.length } }
        else s
      (pagesLoop cancelAt d.name d.stem pages.length pages 0 s).mapCont (moveDone d.stem d.name)

/-- Per-document loop of process_job, app.py lines 199 to 292: one
docStep per document, early return and exception outcomes propagating. -/
def docsLoop (cancelAt : Option Nat) : List Doc → RunSt → Flow
  | [], s => .cont s
  | d :: rest, s =>
    match docStep cancelAt d s with
    | .cont s => docsLoop cancelAt rest s
    | .ret s => .ret s
    | .exn m s => .exn m s

/-- Number of pages a document renders to. -/
def pageCount (d : Doc) : Nat :=
  match d.render with
  | .pages ps => ps.length
  | .raise _ => 0

/-- Filter of the receipts_unstamped archive, app.py lines 316 to 317. -/
def is_unstamped (p : List String) : Bool :=
  p.contains ("receipts") && p.contains ("unstamped")

/-- Filter of the receipts_stamped archive, app.py lines 319 to 320. -/
def is_stamped (p : List String) : Bool :=
  p.contains ("receipts") && p.contains ("stamped")

/-- Filter of the credit_notes archive, app.py lines 322 to 323. -/
def is_credit (p : List String) : Bool :=
  p.contains ("credit_notes")

/-- Tail of the worker after all documents, app.py lines 294 to 332: CSV
written only when rows exist, the four zip archives, then progress 100 and
status done. -/
def finishJob (s : RunSt) : RunSt :=
  let s :=
    if s.all_rows.isEmpty then s
    else
      let s := { s with
        job := { s.job with csv_path := some ["classification_log.csv"] },
        csvFile := some s.all_rows }
      rlog s ("📊 CSV saved: classification_log.csv")
  let s := { s with
    job := { s.job with
      zip_all := some ["zips", "all_output.zip"]
      zip_receipts_unstamped := some ["zips", "receipts_unstamped.zip"]
      zip_receipts_stamped := some ["zips", "receipts_stamped.zip"]
      zip_credit_notes := some ["zips", "credit_notes.zip"] }
    zipFiles := s.zipFiles ++ [
      ("all_output.zip", s.files),
      ("receipts_unstamped.zip", s.files.filter is_unstamped),
      ("receipts_stamped.zip", s.files.filter is_stamped),
      ("credit_notes.zip", s.files.filter is_credit)] }
  let s := setPct s 100
  let s := { s with job := { s.job with status := .done, message := "Complete" } }
  rlog s ("✅ Job finished successfully.")

/-- Input of one worker run: the configuration passed to process_job, the
uploaded documents in sorted filename order, whether pdfinfo_from_path
imported, and the boundary-check index from which cancel_requested reads
true. -/
structure JobInput where
  job_id : String
  dpi : Nat
  sleep_sec : ℚ
  model_name : String
  docs : List Doc
  pdfinfoAvailable : Bool
  cancelAt : Option Nat
deriving DecidableEq, Repr

/-- Pre-estimated total page count, app.py lines 185 to 192: sum over the
input PDFs of the reported page count, a swallowed exception contributing
nothing. -/
def preEstimate (inp : JobInput) : Nat :=
  if inp.pdfinfoAvailable then (inp.docs.map (fun d => d.pdfinfo.getD 0)).sum
  else 0

/-- State at worker start: the freshly created JobState with its dataclass
defaults, no rows, files or archives, no checks performed, and the initial
progress value 0 observable while queued. -/
def initialRunSt : RunSt :=
  { job := {}
    all_rows := []
    files := []
    csvFile := none
    zipFiles := []
    checks := 0
    pctTrace := [0] }

/-- State after the start marker of process_job, app.py lines 174 to 177:
status running, start message, progress 1, start log line. -/
def startState (inp : JobInput) (s0 : RunSt) : RunSt :=
  let s := { s0 with job := { s0.job with status := .running, message := "Starting…" } }
  let s := setPct s 1
  rlog s ("Job " ++ inp.job_id ++ " started. DPI=" ++ toString inp.dpi ++
    ", sleep=" ++ toString inp.sleep_sec ++ ", model=" ++ inp.model_name)

/-- State right before the document loop, app.py lines 174 to 197: the
start marker followed by the total_pages assignment from the pre-count. -/
def prologueState (inp : JobInput) (s0 : RunSt) : RunSt :=
  let s := startState inp s0
  if preEstimate inp > 0 then { s with job := { s.job with total_pages := preEstimate inp } }
  else { s with job := { s.job with total_pages := 0 } }

/-- Body of process_job inside the try block, app.py lines 174 to 292:
start marker, empty-input exception, page pre-count, then the document
loop. The tail after the loop (finishJob) applies only to the fall-through
outcome. -/
def runBody (inp : JobInput) (s0 : RunSt) : Flow :=
  if inp.docs.isEmpty then .exn ("No PDFs found in upload.") (startState inp s0)
  else docsLoop inp.cancelAt inp.docs (prologueState inp s0)

/-- Top-level except handler of process_job, app.py lines 334 to 339:
status error, the exception text, the Error message, and progress_pct
reassigned through safe_pct. -/
def handleError (msg : String) (s : RunSt) : RunSt :=
  let s := { s with job := { s.job with status := .error, error := some msg, message := "Error" } }
  let s := rlog s ("❌ Job error: " ++ msg)
  setPct s (safe_pct (s.job.progress_pct : ℚ))

/-- The whole worker, app.py lines 172 to 339: the body, the tail on fall
through, the immediate return on cancellation, and the except handler. -/
def process_job (inp : JobInput) : RunSt :=
  match runBody inp initialRunSt with
  | .cont s => finishJob s
  | .ret s => s
  | .exn msg s => handleError msg s

/-- Error responses of the download endpoint: HTTPException with status
404 or 400. -/
inductive HttpErr
  | notFound (detail : String)
  | badRequest (detail : String)
deriving DecidableEq, Repr

/-- Result of the download endpoint: a FileResponse carrying the artifact
path and download filename, or an HTTPException. -/
inductive DownloadResult
  | ok (path : List String) (filename : String)
  | fail (e : HttpErr)
deriving DecidableEq, Repr

/-- Lookup in the JOBS map under the lock. -/
def lookupJob (jobs : List (String × JobState)) (job_id : String) : Option JobState :=
  (jobs.find? (fun kv => kv.1 == job_id)).map Prod.snd

/-- The download endpoint, app.py lines 442 to 472. onDisk models
Path.exists; the Python test `not path or not path.exists()` is the
combined none-or-missing case. -/
def download (jobs : List (String × JobState)) (onDisk : List String → Bool)
    (job_id kind : String) : DownloadResult :=
  match lookupJob jobs job_id with
  | none => .fail (.notFound ("Job not found"))
  | some job =>
    if job.status ≠ Status.done then .fail (.badRequest ("Job not completed yet"))
    else
      let pn : Option (Option (List String) × String) :=
        if kind = "all" then some (job.zip_all, "all_output.zip")
        else if kind = "receipts_unstamped" then
          some (job.zip_receipts_unstamped, "receipts_unstamped.zip")
        else if kind = "receipts_stamped" then
          some (job.zip_receipts_stamped, "receipts_stamped.zip")
        else if kind = "credit_notes" then some (job.zip_credit_notes, "credit_notes.zip")
        else if kind = "csv" then some (job.csv_path, "classification_log.csv")
        else none
      match pn with
      | none => .fail (.notFound ("Unknown download type"))
      | some (path?, name) =>
        match path? with
        | none => .fail (.notFound ("File not found"))
        | some p => if onDisk p then .ok p name else .fail (.notFound ("File not found"))

/-- The artifact kinds accepted by the download endpoint. -/
def validKinds : List String :=
  ["all", "receipts_unstamped", "receipts_stamped", "credit_notes", "csv"]

/-- The JobState field holding the artifact path for a given kind. -/
def artifactField (job : JobState) (kind : String) : Option (List String) :=
  if kind = "all" then job.zip_all
  else if kind = "receipts_unstamped" then job.zip_receipts_unstamped
  else if kind = "receipts_stamped" then job.zip_receipts_stamped
  else if kind = "credit_notes" then job.zip_credit_notes
  else if kind = "csv" then job.csv_path
  else none

/-- Artifact fields are all unset and no CSV or zip file has been written:
the shape of the run state everywhere before finishJob. -/
def preArtifacts (s : RunSt) : Prop :=
  s.csvFile = none ∧ s.zipFiles = [] ∧ s.job.csv_path = none ∧
  s.job.zip_all = none ∧ s.job.zip_receipts_unstamped = none ∧
  s.job.zip_receipts_stamped = none ∧ s.job.zip_credit_notes = none

/-- Every value the progress percentage has held lies between 0 and 100. -/
def pctOk (s : RunSt) : Prop :=
  ∀ v ∈ s.pctTrace, 0 ≤ v ∧ v ≤ 100

/-- Relation between a run state and a later run state inside the worker
body: the artifact fields, the error text and the already-written files
are only ever extended or left alone, the check counter grows, and the
progress trace stays within bounds. -/
def Inv (s s' : RunSt) : Prop :=
  s'.csvFile = s.csvFile ∧ s'.zipFiles = s.zipFiles ∧
  s'.job.csv_path = s.job.csv_path ∧ s'.job.zip_all = s.job.zip_all ∧
  s'.job.zip_receipts_unstamped = s.job.zip_receipts_unstamped ∧
  s'.job.zip_receipts_stamped = s.job.zip_receipts_stamped ∧
  s'.job.zip_credit_notes = s.job.zip_credit_notes ∧
  s'.job.error = s.job.error ∧
  (∃ l, s'.files = s.files ++ l) ∧
  s.checks ≤ s'.checks ∧
  (pctOk s → pctOk s')

/-- Total number of pages actually rendered across the documents of a job
(a document whose rendering raises contributes nothing, but such a job
never completes normally). -/
def totalActualPages (docs : List Doc) : Nat :=
  (docs.map pageCount).sum

/-- No page of any successfully rendered document yields a null analysis. -/
def noNullPages (docs : List Doc) : Prop :=
  ∀ d ∈ docs, ∀ ps, d.render = RenderResult.pages ps → OracleResult.null ∉ ps

/-- A one-page document whose page classifies as an unstamped receipt. -/
def docReceipt (nm st : String) : Doc :=
  { name := nm, stem := st, pdfinfo := none,
    render := .pages [.ok { is_receipt := some true, has_stamp := some false }] }

/-- Concrete job for claim C2: two one-page PDFs with page-count
pre-estimation unavailable. -/
def c2Input : JobInput :=
  { job_id := "c2", dpi := 150, sleep_sec := 3, model_name := "m",
    docs := [docReceipt ("a.pdf") ("a"), docReceipt ("b.pdf") ("b")],
    pdfinfoAvailable := false, cancelAt := none }

/-- A three-page document with default verdicts, for claim C3. -/
def docThree : Doc :=
  { name := "b.pdf", stem := "b", pdfinfo := none,
    render := .pages [.ok {}, .ok {}, .ok {}] }

/-- Concrete job for claim C3: first document one page, second document
three pages, page-count pre-estimation unavailable. -/
def c3Input : JobInput :=
  { job_id := "c3", dpi := 150, sleep_sec := 3, model_name := "m",
    docs := [docReceipt ("a.pdf") ("a"), docThree],
    pdfinfoAvailable := false, cancelAt := none }

/-- A one-page document with an accurate upfront page count whose single
oracle call returns a JSON null, for claim C4. -/
def docNull : Doc :=
  { name := "a.pdf", stem := "a", pdfinfo := some 1, render := .pages [.null] }

/-- Concrete job for claim C4: one one-page PDF with an accurate upfront
page count whose single oracle call returns a JSON null. -/
def c4NullInput : JobInput :=
  { job_id := "c4", dpi := 150, sleep_sec := 3, model_name := "m",
    docs := [docNull], pdfinfoAvailable := true, cancelAt := none }

/-- A two-page document with an accurate upfront page count, one page
erroring and one classifying, for the C4 witness. -/
def docErrOk : Doc :=
  { name := "a.pdf", stem := "a", pdfinfo := some 2,
    render := .pages [.err ("rate limit"), .ok { is_receipt := some true, has_stamp := some true }] }

/-- Concrete job for the C4 witness. -/
def c4OkInput : JobInput :=
  { job_id := "c4w", dpi := 150, sleep_sec := 3, model_name := "m",
    docs := [docErrOk], pdfinfoAvailable := true, cancelAt := none }

/-- Concrete job for the C6 witness: one one-page PDF with cancellation
requested before the first boundary check. -/
def c6Input : JobInput :=
  { job_id := "c6", dpi := 150, sleep_sec := 3, model_name := "m",
    docs := [docReceipt ("a.pdf") ("a")], pdfinfoAvailable := false, cancelAt := some 0 }

/-- Concrete job for the C7 witness. -/
def c7Input : JobInput :=
  { job_id := "c7", dpi := 150, sleep_sec := 3, model_name := "m",
    docs := [docReceipt ("a.pdf") ("a")], pdfinfoAvailable := false, cancelAt := none }

/-- A document whose rendering raises, for the C8 witness. -/
def docRaise : Doc :=
  { name := "a.pdf", stem := "a", pdfinfo := none, render := .raise ("poppler exploded") }

/-- Concrete job for the C8 witness: the single document raises on
rendering. -/
def c8Input : JobInput :=
  { job_id := "c8", dpi := 150, sleep_sec := 3, model_name := "m",
    docs := [docRaise], pdfinfoAvailable := false, cancelAt := none }

/-- The state carried by the exception of the C8 witness run, extracted
from the run itself. -/
def c8ExnState : RunSt :=
  match runBody c8Input initialRunSt with
  | .exn _ s => s
  | .cont s => s
  | .ret s => s

/-- A completed job record with every artifact path set, for the C9
witness. -/
def c9DoneJob : JobState :=
  { status := .done, progress_pct := 100, message := "Complete",
    csv_path := some ["classification_log.csv"],
    zip_all := some ["zips", "all_output.zip"],
    zip_receipts_unstamped := some ["zips", "receipts_unstamped.zip"],
    zip_receipts_stamped := some ["zips", "receipts_stamped.zip"],
    zip_credit_notes := some ["zips", "credit_notes.zip"] }

/-! Helper lemmas. -/

@[simp]
theorem job_log_status (j : JobState) (l : String) : (job_log j l).status = j.status := by
  simp only [job_log]; split <;> rfl

@[simp]
theorem job_log_progress (j : JobState) (l : String) :
    (job_log j l).progress_pct = j.progress_pct := by
  simp only [job_log]; split <;> rfl

@[simp]
theorem job_log_message (j : JobState) (l : String) : (job_log j l).message = j.message := by
  simp only [job_log]; split <;> rfl

@[simp]
theorem job_log_error (j : JobState) (l : String) : (job_log j l).error = j.error := by
  simp only [job_log]; split <;> rfl

@[simp]
theorem job_log_total (j : JobState) (l : String) :
    (job_log j l).total_pages = j.total_pages := by
  simp only [job_log]; split <;> rfl

@[simp]
theorem job_log_processed (j : JobState) (l : String) :
    (job_log j l).processed_pages = j.processed_pages := by
  simp only [job_log]; split <;> rfl

@[simp]
theorem job_log_csv_path (j : JobState) (l : String) :
    (job_log j l).csv_path = j.csv_path := by
  simp only [job_log]; split <;> rfl

@[simp]
theorem job_log_zip_all (j : JobState) (l : String) :
    (job_log j l).zip_all = j.zip_all := by
  simp only [job_log]; split <;> rfl

@[simp]
theorem job_log_zip_ru (j : JobState) (l : String) :
    (job_log j l).zip_receipts_unstamped = j.zip_receipts_unstamped := by
  simp only [job_log]; split <;> rfl

@[simp]
theorem job_log_zip_rs (j : JobState) (l : String) :
    (job_log j l).zip_receipts_stamped = j.zip_receipts_stamped := by
  simp only [job_log]; split <;> rfl

@[simp]
theorem job_log_zip_cn (j : JobState) (l : String) :
    (job_log j l).zip_credit_notes = j.zip_credit_notes := by
  simp only [job_log]; split <;> rfl

@[simp]
theorem rlog_job_status (s : RunSt) (l : String) : (rlog s l).job.status = s.job.status := by
  simp [rlog]

@[simp]
theorem rlog_job_progress (s : RunSt) (l : String) :
    (rlog s l).job.progress_pct = s.job.progress_pct := by
  simp [rlog]

@[simp]
theorem rlog_job_message (s : RunSt) (l : String) :
    (rlog s l).job.message = s.job.message := by
  simp [rlog]

@[simp]
theorem rlog_job_error (s : RunSt) (l : String) : (rlog s l).job.error = s.job.error := by
  simp [rlog]

@[simp]
theorem rlog_job_total (s : RunSt) (l : String) :
    (rlog s l).job.total_pages = s.job.total_pages := by
  simp [rlog]

@[simp]
theorem rlog_job_processed (s : RunSt) (l : String) :
    (rlog s l).job.processed_pages = s.job.processed_pages := by
  simp [rlog]

@[simp]
theorem rlog_job_csv_path (s : RunSt) (l : String) :
    (rlog s l).job.csv_path = s.job.csv_path := by
  simp [rlog]

@[simp]
theorem rlog_job_zip_all (s : RunSt) (l : String) :
    (rlog s l).job.zip_all = s.job.zip_all := by
  simp [rlog]

@[simp]
theorem rlog_job_zip_ru (s : RunSt) (l : String) :
    (rlog s l).job.zip_receipts_unstamped = s.job.zip_receipts_unstamped := by
  simp [rlog]

@[simp]
theorem rlog_job_zip_rs (s : RunSt) (l : String) :
    (rlog s l).job.zip_receipts_stamped = s.job.zip_receipts_stamped := by
  simp [rlog]

@[simp]
theorem rlog_job_zip_cn (s : RunSt) (l : String) :
    (rlog s l).job.zip_credit_notes = s.job.zip_credit_notes := by
  simp [rlog]

@[simp]
theorem rlog_files (s : RunSt) (l : String) : (rlog s l).files = s.files := rfl

@[simp]
theorem rlog_all_rows (s : RunSt) (l : String) : (rlog s l).all_rows = s.all_rows := rfl

@[simp]
theorem rlog_csvFile (s : RunSt) (l : String) : (rlog s l).csvFile = s.csvFile := rfl

@[simp]
theorem rlog_zipFiles (s : RunSt) (l : String) : (rlog s l).zipFiles = s.zipFiles := rfl

@[simp]
theorem rlog_checks (s : RunSt) (l : String) : (rlog s l).checks = s.checks := rfl

@[simp]
theorem rlog_pctTrace (s : RunSt) (l : String) : (rlog s l).pctTrace = s.pctTrace := rfl

theorem safe_pct_nonneg (x : ℚ) : 0 ≤ safe_pct x := by
  unfold safe_pct
  split_ifs with h1 h2
  · exact le_refl 0
  · norm_num
  · exact Int.floor_nonneg.mpr (le_of_not_lt h1)

theorem safe_pct_le (x : ℚ) : safe_pct x ≤ 100 := by
  unfold safe_pct
  split_ifs with h1 h2
  · norm_num
  · exact le_refl 100
  · have hx : x ≤ 100 := le_of_not_lt h2
    have := Int.floor_le_floor hx
    simpa using this

theorem safe_pct_int (n : ℤ) (h0 : 0 ≤ n) (h1 : n ≤ 100) : safe_pct (n : ℚ) = n := by
  unfold safe_pct
  split_ifs with ha hb
  · exfalso; exact absurd (by exact_mod_cast ha) (not_lt.mpr h0)
  · exfalso
    have : (100 : ℚ) < (n : ℚ) := hb
    have : (100 : ℤ) < n := by exact_mod_cast this
    omega
  · exact Int.floor_intCast n

theorem safe_pct_clamp (x : ℚ) : safe_pct x = Int.floor (max 0 (min 100 x)) := by
  unfold safe_pct
  split_ifs with ha hb
  · rw [min_eq_right (by linarith), max_eq_left (by linarith)]
    simp
  · rw [min_eq_left (by linarith), max_eq_right (by norm_num)]
    norm_num
  · rw [min_eq_right (by linarith), max_eq_right (by linarith [not_lt.mp ha])]

theorem pct_bounds_append (t u : List ℤ)
    (ht : ∀ v ∈ t, 0 ≤ v ∧ v ≤ 100) (hu : ∀ v ∈ u, 0 ≤ v ∧ v ≤ 100) :
    ∀ v ∈ t ++ u, 0 ≤ v ∧ v ≤ 100 := by
  intro v hv
  rcases List.mem_append.mp hv with h | h
  · exact ht v h
  · exact hu v h

theorem Inv.refl (s : RunSt) : Inv s s := by
  refine ⟨rfl, rfl, rfl, rfl, rfl, rfl, rfl, rfl, ⟨[], by simp⟩, le_refl _, fun h => h⟩

theorem Inv.trans {s1 s2 s3 : RunSt} (h12 : Inv s1 s2) (h23 : Inv s2 s3) : Inv s1 s3 := by
  obtain ⟨a1, a2, a3, a4, a5, a6, a7, a8, ⟨l1, hl1⟩, a10, a11⟩ := h12
  obtain ⟨b1, b2, b3, b4, b5, b6, b7, b8, ⟨l2, hl2⟩, b10, b11⟩ := h23
  exact ⟨b1.trans a1, b2.trans a2, b3.trans a3, b4.trans a4, b5.trans a5, b6.trans a6,
    b7.trans a7, b8.trans a8, ⟨l1 ++ l2, by rw [hl2, hl1, List.append_assoc]⟩,
    a10.trans b10, fun h => b11 (a11 h)⟩

theorem processPage_csvFile (docName docStem : String) (numPages pageNum : Nat)
    (res : OracleResult) (s : RunSt) :
    (processPage docName docStem numPages pageNum res s).csvFile = s.csvFile := by
  cases res <;> simp only [processPage, setPct] <;> (repeat' split) <;> simp

theorem processPage_zipFiles (docName docStem : String) (numPages pageNum : Nat)
    (res : OracleResult) (s : RunSt) :
    (processPage docName docStem numPages pageNum res s).zipFiles = s.zipFiles := by
  cases res <;> simp only [processPage, setPct] <;> (repeat' split) <;> simp

theorem processPage_csv_path (docName docStem : String) (numPages pageNum : Nat)
    (res : OracleResult) (s : RunSt) :
    (processPage docName docStem numPages pageNum res s).job.csv_path = s.job.csv_path := by
  cases res <;> simp only [processPage, setPct] <;> (repeat' split) <;> simp

theorem processPage_zip_all (docName docStem : String) (numPages pageNum : Nat)
    (res : OracleResult) (s : RunSt) :
    (processPage docName docStem numPages pageNum res s).job.zip_all = s.job.zip_all := by
  cases res <;> simp only [processPage, setPct] <;> (repeat' split) <;> simp

theorem processPage_zip_ru (docName docStem : String) (numPages pageNum : Nat)
    (res : OracleResult) (s : RunSt) :
    (processPage docName docStem numPages pageNum res s).job.zip_receipts_unstamped
      = s.job.zip_receipts_unstamped := by
  cases res <;> simp only [processPage, setPct] <;> (repeat' split) <;> simp

theorem processPage_zip_rs (docName docStem : String) (numPages pageNum : Nat)
    (res : OracleResult) (s : RunSt) :
    (processPage docName docStem numPages pageNum res s).job.zip_receipts_stamped
      = s.job.zip_receipts_stamped := by
  cases res <;> simp only [processPage, setPct] <;> (repeat' split) <;> simp

theorem processPage_zip_cn (docName docStem : String) (numPages pageNum : Nat)
    (res : OracleResult) (s : RunSt) :
    (processPage docName docStem numPages pageNum res s).job.zip_credit_notes
      = s.job.zip_credit_notes := by
  cases res <;> simp only [processPage, setPct] <;> (repeat' split) <;> simp

theorem processPage_error (docName docStem : String) (numPages pageNum : Nat)
    (res : OracleResult) (s : RunSt) :
    (processPage docName docStem numPages pageNum res s).job.error = s.job.error := by
  cases res <;> simp only [processPage, setPct] <;> (repeat' split) <;> simp

theorem processPage_files_mono (docName docStem : String) (numPages pageNum : Nat)
    (res : OracleResult) (s : RunSt) :
    ∃ l, (processPage docName docStem numPages pageNum res s).files = s.files ++ l := by
  cases res <;> simp only [processPage, setPct] <;> (repeat' split) <;>
    first
    | exact ⟨_, rfl⟩
    | (refine ⟨[], ?_⟩; simp)

theorem processPage_processed_nonnull (docName docStem : String) (numPages pageNum : Nat)
    (res : OracleResult) (s : RunSt) (h : res ≠ OracleResult.null) :
    (processPage docName docStem numPages pageNum res s).job.processed_pages
      = s.job.processed_pages + 1 := by
  cases res with
  | null => exact absurd rfl h
  | err m => simp only [processPage, setPct]; (repeat' split) <;> simp
  | ok v => simp only [processPage, setPct]; (repeat' split) <;> simp

theorem processPage_processed_null (docName docStem : String) (numPages pageNum : Nat)
    (s : RunSt) :
    (processPage docName docStem numPages pageNum OracleResult.null s).job.processed_pages
      = s.job.processed_pages := by
  simp only [processPage, setPct]; (repeat' split) <;> simp

theorem processPage_total (docName docStem : String) (numPages pageNum : Nat)
    (res : OracleResult) (s : RunSt) :
    (processPage docName docStem numPages pageNum res s).job.total_pages = s.job.total_pages := by
  cases res <;> simp only [processPage, setPct] <;> (repeat' split) <;> simp

theorem processPage_status (docName docStem : String) (numPages pageNum : Nat)
    (res : OracleResult) (s : RunSt) :
    (processPage docName docStem numPages pageNum res s).job.status = s.job.status := by
  cases res <;> simp only [processPage, setPct] <;> (repeat' split) <;> simp

theorem processPage_checks (docName docStem : String) (numPages pageNum : Nat)
    (res : OracleResult) (s : RunSt) :
    (processPage docName docStem numPages pageNum res s).checks = s.checks := by
  cases res <;> simp only [processPage, setPct] <;> (repeat' split) <;> simp

theorem processPage_pctOk (docName docStem : String) (numPages pageNum : Nat)
    (res : OracleResult) (s : RunSt) (h : pctOk s) :
    pctOk (processPage docName docStem numPages pageNum res s) := by
  unfold pctOk at *
  cases res <;> simp only [processPage, setPct] <;> (repeat' split) <;>
    (repeat' apply pct_bounds_append) <;>
    first
    | exact h
    | (intro v hv; simp at hv; subst hv; exact ⟨safe_pct_nonneg _, safe_pct_le _⟩)

theorem processPage_inv (docName docStem : String) (numPages pageNum : Nat)
    (res : OracleResult) (s : RunSt) :
    Inv s (processPage docName docStem numPages pageNum res s) :=
  ⟨processPage_csvFile _ _ _ _ _ _, processPage_zipFiles _ _ _ _ _ _,
    processPage_csv_path _ _ _ _ _ _, processPage_zip_all _ _ _ _ _ _,
    processPage_zip_ru _ _ _ _ _ _, processPage_zip_rs _ _ _ _ _ _,
    processPage_zip_cn _ _ _ _ _ _, processPage_error _ _ _ _ _ _,
    processPage_files_mono _ _ _ _ _ _,
    le_of_eq (processPage_checks _ _ _ _ _ _).symm,
    processPage_pctOk _ _ _ _ _ _⟩

theorem Inv_checksBump (s : RunSt) : Inv s { s with checks := s.checks + 1 } :=
  ⟨rfl, rfl, rfl, rfl, rfl, rfl, rfl, rfl, ⟨[], by simp⟩, Nat.le_succ _, fun h => h⟩

theorem Inv_rlog (s : RunSt) (line : String) : Inv s (rlog s line) := by
  refine ⟨by simp, by simp, by simp, by simp, by simp, by simp, by simp, by simp,
    ⟨[], by simp⟩, by simp, ?_⟩
  intro h
  unfold pctOk at *
  intro v hv
  exact h v (by simpa using hv)

theorem Inv_filesSnoc (s : RunSt) (p : List String) :
    Inv s { s with files := s.files ++ [p] } :=
  ⟨rfl, rfl, rfl, rfl, rfl, rfl, rfl, rfl, ⟨[p], rfl⟩, le_refl _, fun h => h⟩

theorem pagesLoop_state_inv (cA : Option Nat) (dn ds : String) (np : Nat) :
    ∀ ps i s, Inv s (pagesLoop cA dn ds np ps i s).state := by
  intro ps
  induction ps with
  | nil => intro i s; exact Inv.refl s
  | cons res rest ih =>
    intro i s
    simp only [pagesLoop]
    cases hreq : cancelRequested cA s.checks with
    | true =>
      simp only [hreq, if_true, Flow.state]
      refine ⟨by simp, by simp, by simp, by simp, by simp, by simp, by simp, by simp,
        ⟨[], by simp⟩, by simp, ?_⟩
      intro h
      unfold pctOk at *
      intro v hv
      exact h v (by simpa using hv)
    | false =>
      simp only [hreq, Bool.false_eq_true, if_false]
      exact Inv.trans (Inv.trans (Inv_checksBump s) (processPage_inv _ _ _ _ _ _)) (ih _ _)

theorem pagesLoop_total (cA : Option Nat) (dn ds : String) (np : Nat) :
    ∀ ps i s, (pagesLoop cA dn ds np ps i s).state.job.total_pages = s.job.total_pages := by
  intro ps
  induction ps with
  | nil => intro i s; rfl
  | cons res rest ih =>
    intro i s
    simp only [pagesLoop]
    cases hreq : cancelRequested cA s.checks with
    | true => simp [hreq, Flow.state]
    | false =>
      simp only [hreq, Bool.false_eq_true, if_false]
      rw [ih, processPage_total]

theorem pagesLoop_ret_status (cA : Option Nat) (dn ds : String) (np : Nat) :
    ∀ ps i s s', pagesLoop cA dn ds np ps i s = .ret s' → s'.job.status = Status.cancelled := by
  intro ps
  induction ps with
  | nil => intro i s s' h; cases h
  | cons res rest ih =>
    intro i s s' h
    simp only [pagesLoop] at h
    cases hreq : cancelRequested cA s.checks with
    | true =>
      rw [hreq] at h
      simp only [if_true] at h
      cases h
      simp
    | false =>
      rw [hreq] at h
      simp only [Bool.false_eq_true, if_false] at h
      exact ih _ _ _ h

theorem pagesLoop_cont_status (cA : Option Nat) (dn ds : String) (np : Nat) :
    ∀ ps i s s', pagesLoop cA dn ds np ps i s = .cont s' → s'.job.status = s.job.status := by
  intro ps
  induction ps with
  | nil => intro i s s' h; cases h; rfl
  | cons res rest ih =>
    intro i s s' h
    simp only [pagesLoop] at h
    cases hreq : cancelRequested cA s.checks with
    | true => rw [hreq] at h; simp only [if_true] at h; cases h
    | false =>
      rw [hreq] at h
      simp only [Bool.false_eq_true, if_false] at h
      rw [ih _ _ _ h, processPage_status]

theorem pagesLoop_no_exn (cA : Option Nat) (dn ds : String) (np : Nat) :
    ∀ ps i s m s', pagesLoop cA dn ds np ps i s = .exn m s' → False := by
  intro ps
  induction ps with
  | nil => intro i s m s' h; cases h
  | cons res rest ih =>
    intro i s m s' h
    simp only [pagesLoop] at h
    cases hreq : cancelRequested cA s.checks with
    | true => rw [hreq] at h; simp only [if_true] at h; cases h
    | false =>
      rw [hreq] at h
      simp only [Bool.false_eq_true, if_false] at h
      exact ih _ _ _ _ h

theorem pagesLoop_cont_processed (cA : Option Nat) (dn ds : String) (np : Nat) :
    ∀ ps i s s', OracleResult.null ∉ ps → pagesLoop cA dn ds np ps i s = .cont s' →
      s'.job.processed_pages = s.job.processed_pages + ps.length := by
  intro ps
  induction ps with
  | nil => intro i s s' _ h; cases h; simp
  | cons res rest ih =>
    intro i s s' hnn h
    simp only [pagesLoop] at h
    cases hreq : cancelRequested cA s.checks with
    | true => rw [hreq] at h; simp only [if_true] at h; cases h
    | false =>
      rw [hreq] at h
      simp only [Bool.false_eq_true, if_false] at h
      have hres : res ≠ OracleResult.null := fun he => hnn (he ▸ List.mem_cons_self _ _)
      have hrest : OracleResult.null ∉ rest := fun he => hnn (List.mem_cons_of_mem _ he)
      rw [ih _ _ _ hrest h, processPage_processed_nonnull _ _ _ _ _ _ hres]
      simp only [List.length_cons]
      omega

theorem pagesLoop_checks_le (t : Nat) (dn ds : String) (np : Nat) :
    ∀ ps i s s', s.checks ≤ t → pagesLoop (some t) dn ds np ps i s = .cont s' →
      s'.checks ≤ t := by
  intro ps
  induction ps with
  | nil => intro i s s' hle h; cases h; exact hle
  | cons res rest ih =>
    intro i s s' hle h
    simp only [pagesLoop] at h
    cases hreq : cancelRequested (some t) s.checks with
    | true => rw [hreq] at h; simp only [if_true] at h; cases h
    | false =>
      rw [hreq] at h
      simp only [Bool.false_eq_true, if_false] at h
      simp only [cancelRequested, decide_eq_false_iff_not] at hreq
      have hlt : s.checks + 1 ≤ t := by omega
      have := ih _ _ _ (by rw [processPage_checks]; exact hlt) h
      exact this

theorem pagesLoop_cont_none (cA : Option Nat) (dn ds : String) (np : Nat) :
    ∀ ps i s s', pagesLoop cA dn ds np ps i s = .cont s' →
      pagesLoop none dn ds np ps i s = .cont s' := by
  intro ps
  induction ps with
  | nil => intro i s s' h; exact h
  | cons res rest ih =>
    intro i s s' h
    simp only [pagesLoop] at h ⊢
    cases hreq : cancelRequested cA s.checks with
    | true => rw [hreq] at h; simp only [if_true] at h; cases h
    | false =>
      rw [hreq] at h
      simp only [Bool.false_eq_true, if_false] at h
      simp only [cancelRequested, Bool.false_eq_true, if_false]
      exact ih _ _ _ h

theorem pagesLoop_ret_none_files (cA : Option Nat) (dn ds : String) (np : Nat) :
    ∀ ps i s s', pagesLoop cA dn ds np ps i s = .ret s' →
      ∃ l, (pagesLoop none dn ds np ps i s).state.files = s'.files ++ l := by
  intro ps
  induction ps with
  | nil => intro i s s' h; cases h
  | cons res rest ih =>
    intro i s s' h
    simp only [pagesLoop] at h ⊢
    cases hreq : cancelRequested cA s.checks with
    | true =>
      rw [hreq] at h
      simp only [if_true] at h
      cases h
      simp only [cancelRequested, Bool.false_eq_true, if_false]
      obtain ⟨l1, hl1⟩ := processPage_files_mono dn ds np (i + 1) res
        { s with checks := s.checks + 1 }
      obtain ⟨_, _, _, _, _, _, _, _, ⟨l2, hl2⟩, _, _⟩ :=
        pagesLoop_state_inv none dn ds np rest (i + 1)
          (processPage dn ds np (i + 1) res { s with checks := s.checks + 1 })
      refine ⟨l1 ++ l2, ?_⟩
      rw [hl2, hl1]
      simp [List.append_assoc]
    | false =>
      rw [hreq] at h
      simp only [Bool.false_eq_true, if_false] at h
      simp only [cancelRequested, Bool.false_eq_true, if_false]
      exact ih _ _ _ h

theorem Inv_totalSet (s : RunSt) (n : Nat) :
    Inv s { s with job := { s.job with total_pages := n } } :=
  ⟨rfl, rfl, rfl, rfl, rfl, rfl, rfl, rfl, ⟨[], by simp⟩, le_refl _, fun h => h⟩


theorem mapCont_state_inv (f : RunSt → RunSt) (F : Flow) (hf : ∀ s, Inv s (f s)) :
    Inv F.state (F.mapCont f).state := by
  cases F with
  | cont s => exact hf s
  | ret s => exact Inv.refl s
  | exn m s => exact Inv.refl s

theorem mapCont_ret (f : RunSt → RunSt) (F : Flow) (s' : RunSt) :
    F.mapCont f = .ret s' ↔ F = .ret s' := by
  cases F <;> simp [Flow.mapCont]

theorem mapCont_exn (f : RunSt → RunSt) (F : Flow) (m : String) (s' : RunSt) :
    F.mapCont f = .exn m s' ↔ F = .exn m s' := by
  cases F <;> simp [Flow.mapCont]

theorem mapCont_cont (f : RunSt → RunSt) (F : Flow) (s' : RunSt) :
    F.mapCont f = .cont s' ↔ ∃ s0, F = .cont s0 ∧ s' = f s0 := by
  cases F <;> simp [Flow.mapCont, eq_comm]

theorem moveDone_inv (stem nm : String) (s : RunSt) : Inv s (moveDone stem nm s) :=
  Inv.trans (Inv_filesSnoc s [stem, nm]) (Inv_rlog _ _)

theorem moveDone_processed (stem nm : String) (s : RunSt) :
    (moveDone stem nm s).job.processed_pages = s.job.processed_pages := by
  simp [moveDone]

theorem moveDone_total (stem nm : String) (s : RunSt) :
    (moveDone stem nm s).job.total_pages = s.job.total_pages := by
  simp [moveDone]

theorem moveDone_status (stem nm : String) (s : RunSt) :
    (moveDone stem nm s).job.status = s.job.status := by
  simp [moveDone]

theorem moveDone_checks (stem nm : String) (s : RunSt) :
    (moveDone stem nm s).checks = s.checks := by
  simp [moveDone]

theorem docStep_inv (cA : Option Nat) (d : Doc) (s : RunSt) :
    Inv s (docStep cA d s).state := by
  simp only [docStep]
  cases hreq : cancelRequested cA s.checks with
  | true =>
    simp only [hreq, if_true, Flow.state]
    refine ⟨by simp, by simp, by simp, by simp, by simp, by simp, by simp, by simp,
      ⟨[], by simp⟩, by simp, ?_⟩
    intro h
    unfold pctOk at *
    intro v hv
    exact h v (by simpa using hv)
  | false =>
    simp only [hreq, Bool.false_eq_true, if_false]
    cases hrd : d.render with
    | raise m =>
      simp only [hrd, Flow.state]
      exact Inv.trans (Inv_checksBump s) (Inv_rlog _ _)
    | pages ps =>
      simp only [hrd, rlog_job_total]
      by_cases ht : s.job.total_pages = 0
      · simp only [ht, reduceIte]
        refine Inv.trans ?_ (Inv.trans (pagesLoop_state_inv cA d.name d.stem ps.length ps 0 _)
          (mapCont_state_inv _ _ (moveDone_inv d.stem d.name)))
        exact Inv.trans (Inv.trans (Inv_checksBump s) (Inv_rlog _ _)) (Inv_totalSet _ _)
      · simp only [ht, reduceIte]
        refine Inv.trans ?_ (Inv.trans (pagesLoop_state_inv cA d.name d.stem ps.length ps 0 _)
          (mapCont_state_inv _ _ (moveDone_inv d.stem d.name)))
        exact Inv.trans (Inv_checksBump s) (Inv_rlog _ _)

theorem mapCont_state_total (a b : String) (F : Flow) :
    ((F.mapCont (moveDone a b)).state).job.total_pages = F.state.job.total_pages := by
  cases F <;> simp [Flow.mapCont, Flow.state, moveDone_total]

theorem mapCont_state_files (a b : String) (F : Flow) :
    ∃ l, ((F.mapCont (moveDone a b)).state).files = F.state.files ++ l := by
  cases F with
  | cont s => exact ⟨[[a, b]], by simp [Flow.mapCont, Flow.state, moveDone]⟩
  | ret s => exact ⟨[], by simp [Flow.mapCont, Flow.state]⟩
  | exn m s => exact ⟨[], by simp [Flow.mapCont, Flow.state]⟩

theorem docStep_ret_status (cA : Option Nat) (d : Doc) (s s' : RunSt)
    (h : docStep cA d s = .ret s') : s'.job.status = Status.cancelled := by
  simp only [docStep] at h
  cases hreq : cancelRequested cA s.checks with
  | true =>
    rw [hreq] at h
    simp only [if_true] at h
    cases h
    simp
  | false =>
    rw [hreq] at h
    simp only [Bool.false_eq_true, if_false] at h
    cases hrd : d.render with
    | raise m => rw [hrd] at h; cases h
    | pages ps =>
      rw [hrd] at h
      rw [mapCont_ret] at h
      exact pagesLoop_ret_status _ _ _ _ _ _ _ _ h

theorem docStep_cont_status (cA : Option Nat) (d : Doc) (s s' : RunSt)
    (h : docStep cA d s = .cont s') : s'.job.status = s.job.status := by
  simp only [docStep] at h
  cases hreq : cancelRequested cA s.checks with
  | true => rw [hreq] at h; simp only [if_true] at h; cases h
  | false =>
    rw [hreq] at h
    simp only [Bool.false_eq_true, if_false] at h
    cases hrd : d.render with
    | raise m => rw [hrd] at h; cases h
    | pages ps =>
      rw [hrd] at h
      rw [mapCont_cont] at h
      obtain ⟨s0, hpl, hs'⟩ := h
      rw [hs', moveDone_status, pagesLoop_cont_status _ _ _ _ _ _ _ _ hpl]
      split <;> simp

theorem docStep_state_total_ne (cA : Option Nat) (d : Doc) (s : RunSt)
    (h : s.job.total_pages ≠ 0) :
    (docStep cA d s).state.job.total_pages = s.job.total_pages := by
  simp only [docStep]
  cases hreq : cancelRequested cA s.checks with
  | true => simp [hreq, Flow.state]
  | false =>
    simp only [hreq, Bool.false_eq_true, if_false]
    cases hrd : d.render with
    | raise m => simp [hrd, Flow.state]
    | pages ps =>
      simp only [hrd, rlog_job_total, mapCont_state_total]
      rw [pagesLoop_total]
      split <;> simp_all

theorem docStep_cont_processed (cA : Option Nat) (d : Doc) (s s' : RunSt)
    (hnn : ∀ ps, d.render = RenderResult.pages ps → OracleResult.null ∉ ps)
    (h : docStep cA d s = .cont s') :
    s'.job.processed_pages = s.job.processed_pages + pageCount d := by
  simp only [docStep] at h
  cases hreq : cancelRequested cA s.checks with
  | true => rw [hreq] at h; simp only [if_true] at h; cases h
  | false =>
    rw [hreq] at h
    simp only [Bool.false_eq_true, if_false] at h
    cases hrd : d.render with
    | raise m => rw [hrd] at h; cases h
    | pages ps =>
      rw [hrd] at h
      rw [mapCont_cont] at h
      obtain ⟨s0, hpl, hs'⟩ := h
      rw [hs', moveDone_processed, pagesLoop_cont_processed _ _ _ _ _ _ _ _ (hnn ps hrd) hpl]
      have : pageCount d = ps.length := by simp [pageCount, hrd]
      rw [this]
      split <;> simp

theorem docStep_cont_checks_le (t : Nat) (d : Doc) (s s' : RunSt)
    (h : docStep (some t) d s = .cont s') : s'.checks ≤ t := by
  simp only [docStep] at h
  cases hreq : cancelRequested (some t) s.checks with
  | true => rw [hreq] at h; simp only [if_true] at h; cases h
  | false =>
    rw [hreq] at h
    simp only [Bool.false_eq_true, if_false] at h
    simp only [cancelRequested, decide_eq_false_iff_not] at hreq
    cases hrd : d.render with
    | raise m => rw [hrd] at h; cases h
    | pages ps =>
      rw [hrd] at h
      rw [mapCont_cont] at h
      obtain ⟨s0, hpl, hs'⟩ := h
      rw [hs', moveDone_checks]
      refine pagesLoop_checks_le _ _ _ _ _ _ _ _ ?_ hpl
      split <;> (simp; omega)

theorem docStep_exn_checks_le (t : Nat) (d : Doc) (s s' : RunSt) (m : String)
    (h : docStep (some t) d s = .exn m s') : s'.checks ≤ t := by
  simp only [docStep] at h
  cases hreq : cancelRequested (some t) s.checks with
  | true => rw [hreq] at h; simp only [if_true] at h; cases h
  | false =>
    rw [hreq] at h
    simp only [Bool.false_eq_true, if_false] at h
    simp only [cancelRequested, decide_eq_false_iff_not] at hreq
    cases hrd : d.render with
    | raise mm =>
      rw [hrd] at h
      cases h
      simp
      omega
    | pages ps =>
      rw [hrd] at h
      rw [mapCont_exn] at h
      exact absurd h (fun hh => pagesLoop_no_exn _ _ _ _ _ _ _ _ _ hh)

theorem docStep_cont_none (cA : Option Nat) (d : Doc) (s s' : RunSt)
    (h : docStep cA d s = .cont s') : docStep none d s = .cont s' := by
  simp only [docStep] at h ⊢
  cases hreq : cancelRequested cA s.checks with
  | true => rw [hreq] at h; simp only [if_true] at h; cases h
  | false =>
    rw [hreq] at h
    simp only [Bool.false_eq_true, if_false] at h
    simp only [cancelRequested, Bool.false_eq_true, if_false]
    cases hrd : d.render with
    | raise m =>
      simp only [hrd] at h
      cases h
    | pages ps =>
      simp only [hrd] at h ⊢
      rw [mapCont_cont] at h ⊢
      obtain ⟨s0, hpl, hs'⟩ := h
      exact ⟨s0, pagesLoop_cont_none _ _ _ _ _ _ _ _ hpl, hs'⟩

theorem docStep_ret_none_files (cA : Option Nat) (d : Doc) (s s' : RunSt)
    (h : docStep cA d s = .ret s') :
    ∃ l, (docStep none d s).state.files = s'.files ++ l := by
  cases hreq : cancelRequested cA s.checks with
  | true =>
    simp only [docStep, hreq, if_true] at h
    cases h
    obtain ⟨_, _, _, _, _, _, _, _, ⟨l, hl⟩, _, _⟩ := docStep_inv none d s
    exact ⟨l, by rw [hl]; simp⟩
  | false =>
    simp only [docStep, hreq, Bool.false_eq_true, if_false] at h
    cases hrd : d.render with
    | raise m => rw [hrd] at h; cases h
    | pages ps =>
      rw [hrd] at h
      rw [mapCont_ret] at h
      obtain ⟨l1, hl1⟩ := pagesLoop_ret_none_files _ _ _ _ _ _ _ _ h
      simp only [docStep, cancelRequested, Bool.false_eq_true, if_false, hrd]
      obtain ⟨l2, hl2⟩ := mapCont_state_files d.stem d.name
        (pagesLoop none d.name d.stem ps.length ps 0
          (if (rlog { s with checks := s.checks + 1 } ("Processing: " ++ d.name)).job.total_pages = 0
            then { rlog { s with checks := s.checks + 1 } ("Processing: " ++ d.name) with
              job := { (rlog { s with checks := s.checks + 1 } ("Processing: " ++ d.name)).job with
                total_pages := (rlog { s with checks := s.checks + 1 }
                  ("Processing: " ++ d.name)).job.total_pages + ps.length } }
            else rlog { s with checks := s.checks + 1 } ("Processing: " ++ d.name)))
      rw [hl2, hl1, List.append_assoc]
      exact ⟨l1 ++ l2, rfl⟩

theorem docsLoop_state_inv (cA : Option Nat) :
    ∀ docs s, Inv s (docsLoop cA docs s).state := by
  intro docs
  induction docs with
  | nil => intro s; exact Inv.refl s
  | cons d rest ih =>
    intro s
    simp only [docsLoop]
    cases hds : docStep cA d s with
    | cont s1 =>
      have h1 := docStep_inv cA d s
      rw [hds] at h1
      exact Inv.trans h1 (ih s1)
    | ret s1 =>
      have h1 := docStep_inv cA d s
      rw [hds] at h1
      exact h1
    | exn m s1 =>
      have h1 := docStep_inv cA d s
      rw [hds] at h1
      exact h1

theorem docsLoop_ret_status (cA : Option Nat) :
    ∀ docs s s', docsLoop cA docs s = .ret s' → s'.job.status = Status.cancelled := by
  intro docs
  induction docs with
  | nil => intro s s' h; cases h
  | cons d rest ih =>
    intro s s' h
    simp only [docsLoop] at h
    cases hds : docStep cA d s with
    | cont s1 => rw [hds] at h; exact ih _ _ h
    | ret s1 => rw [hds] at h; cases h; exact docStep_ret_status _ _ _ _ hds
    | exn m s1 => rw [hds] at h; cases h

theorem docsLoop_cont_status (cA : Option Nat) :
    ∀ docs s s', docsLoop cA docs s = .cont s' → s'.job.status = s.job.status := by
  intro docs
  induction docs with
  | nil => intro s s' h; cases h; rfl
  | cons d rest ih =>
    intro s s' h
    simp only [docsLoop] at h
    cases hds : docStep cA d s with
    | cont s1 =>
      rw [hds] at h
      rw [ih _ _ h, docStep_cont_status _ _ _ _ hds]
    | ret s1 => rw [hds] at h; cases h
    | exn m s1 => rw [hds] at h; cases h

theorem docsLoop_state_total_ne (cA : Option Nat) :
    ∀ docs s, s.job.total_pages ≠ 0 →
      (docsLoop cA docs s).state.job.total_pages = s.job.total_pages := by
  intro docs
  induction docs with
  | nil => intro s _; rfl
  | cons d rest ih =>
    intro s ht
    simp only [docsLoop]
    cases hds : docStep cA d s with
    | cont s1 =>
      have h1 := docStep_state_total_ne cA d s ht
      rw [hds] at h1
      simp only [Flow.state] at h1
      rw [ih s1 (by omega)]
      exact h1
    | ret s1 =>
      have h1 := docStep_state_total_ne cA d s ht
      rw [hds] at h1
      exact h1
    | exn m s1 =>
      have h1 := docStep_state_total_ne cA d s ht
      rw [hds] at h1
      exact h1

theorem docsLoop_cont_processed (cA : Option Nat) :
    ∀ docs s s', noNullPages docs → s.job.total_pages ≠ 0 →
      docsLoop cA docs s = .cont s' →
      s'.job.processed_pages = s.job.processed_pages + totalActualPages docs := by
  intro docs
  induction docs with
  | nil => intro s s' _ _ h; cases h; simp [totalActualPages]
  | cons d rest ih =>
    intro s s' hnn ht h
    simp only [docsLoop] at h
    cases hds : docStep cA d s with
    | cont s1 =>
      rw [hds] at h
      have htot : s1.job.total_pages = s.job.total_pages := by
        have h1 := docStep_state_total_ne cA d s ht
        rw [hds] at h1
        exact h1
      have hrest : noNullPages rest := fun d2 hd2 => hnn d2 (List.mem_cons_of_mem _ hd2)
      have hd : ∀ ps, d.render = RenderResult.pages ps → OracleResult.null ∉ ps :=
        fun ps hps => hnn d (List.mem_cons_self _ _) ps hps
      rw [ih s1 s' hrest (by omega) h, docStep_cont_processed cA d s s1 hd hds]
      simp only [totalActualPages, List.map_cons, List.sum_cons]
      omega
    | ret s1 => rw [hds] at h; cases h
    | exn m s1 => rw [hds] at h; cases h

theorem docsLoop_cont_checks_le (t : Nat) :
    ∀ docs s s', s.checks ≤ t → docsLoop (some t) docs s = .cont s' → s'.checks ≤ t := by
  intro docs
  induction docs with
  | nil => intro s s' hle h; cases h; exact hle
  | cons d rest ih =>
    intro s s' hle h
    simp only [docsLoop] at h
    cases hds : docStep (some t) d s with
    | cont s1 =>
      rw [hds] at h
      exact ih s1 s' (docStep_cont_checks_le t d s s1 hds) h
    | ret s1 => rw [hds] at h; cases h
    | exn m s1 => rw [hds] at h; cases h

theorem docsLoop_exn_checks_le (t : Nat) :
    ∀ docs s s' m, s.checks ≤ t → docsLoop (some t) docs s = .exn m s' → s'.checks ≤ t := by
  intro docs
  induction docs with
  | nil => intro s s' m hle h; cases h
  | cons d rest ih =>
    intro s s' m hle h
    simp only [docsLoop] at h
    cases hds : docStep (some t) d s with
    | cont s1 =>
      rw [hds] at h
      exact ih s1 s' m (docStep_cont_checks_le t d s s1 hds) h
    | ret s1 => rw [hds] at h; cases h
    | exn m2 s1 =>
      rw [hds] at h
      cases h
      exact docStep_exn_checks_le t d s s' m hds

theorem docsLoop_ret_none_files (cA : Option Nat) :
    ∀ docs s s', docsLoop cA docs s = .ret s' →
      ∃ l, (docsLoop none docs s).state.files = s'.files ++ l := by
  intro docs
  induction docs with
  | nil => intro s s' h; cases h
  | cons d rest ih =>
    intro s s' h
    simp only [docsLoop] at h ⊢
    cases hds : docStep cA d s with
    | cont s1 =>
      rw [hds] at h
      rw [docStep_cont_none cA d s s1 hds]
      exact ih s1 s' h
    | ret s1 =>
      rw [hds] at h
      cases h
      obtain ⟨l1, hl1⟩ := docStep_ret_none_files cA d s s' hds
      cases hds2 : docStep none d s with
      | cont s2 =>
        rw [hds2] at hl1
        simp only [Flow.state] at hl1
        obtain ⟨_, _, _, _, _, _, _, _, ⟨l2, hl2⟩, _, _⟩ := docsLoop_state_inv none rest s2
        exact ⟨l1 ++ l2, by rw [hl2, hl1, List.append_assoc]⟩
      | ret s2 =>
        rw [hds2] at hl1
        exact ⟨l1, hl1⟩
      | exn m2 s2 =>
        rw [hds2] at hl1
        exact ⟨l1, hl1⟩
    | exn m s1 => rw [hds] at h; cases h

theorem prologue_processed (inp : JobInput) (s0 : RunSt) :
    (prologueState inp s0).job.processed_pages = s0.job.processed_pages := by
  simp only [prologueState, startState, setPct]
  split <;> simp

theorem prologue_status (inp : JobInput) (s0 : RunSt) :
    (prologueState inp s0).job.status = Status.running := by
  simp only [prologueState, startState, setPct]
  split <;> simp

theorem prologue_checks (inp : JobInput) (s0 : RunSt) :
    (prologueState inp s0).checks = s0.checks := by
  simp only [prologueState, startState, setPct]
  split <;> simp

theorem prologue_total (inp : JobInput) (s0 : RunSt) :
    (prologueState inp s0).job.total_pages
      = if preEstimate inp > 0 then preEstimate inp else 0 := by
  simp only [prologueState, startState, setPct]
  split <;> simp_all

theorem Inv_setPct_ok (s : RunSt) (v : ℤ) (h0 : 0 ≤ v) (h1 : v ≤ 100) :
    Inv s (setPct s v) := by
  refine ⟨rfl, rfl, rfl, rfl, rfl, rfl, rfl, rfl, ⟨[], by simp [setPct]⟩,
    by simp [setPct], ?_⟩
  intro h
  unfold pctOk at *
  intro w hw
  have hw2 : w ∈ s.pctTrace ∨ w = v := by simpa [setPct] using hw
  rcases hw2 with hh | hh
  · exact h w hh
  · subst hh
    exact ⟨h0, h1⟩

theorem Inv_startUpd (s0 : RunSt) :
    Inv s0 { s0 with job := { s0.job with status := Status.running, message := "Starting…" } } :=
  ⟨rfl, rfl, rfl, rfl, rfl, rfl, rfl, rfl, ⟨[], by simp⟩, le_refl _, fun h => h⟩

theorem prologue_inv (inp : JobInput) (s0 : RunSt) : Inv s0 (prologueState inp s0) := by
  unfold prologueState startState
  split <;>
    exact Inv.trans (Inv.trans (Inv.trans (Inv_startUpd s0)
      (Inv_setPct_ok _ 1 (by norm_num) (by norm_num))) (Inv_rlog _ _)) (Inv_totalSet _ _)

theorem prologue_cancel_none (inp : JobInput) (s0 : RunSt) :
    prologueState { inp with cancelAt := none } s0 = prologueState inp s0 := rfl

theorem finishJob_status (s : RunSt) : (finishJob s).job.status = Status.done := by
  simp only [finishJob, setPct]
  split <;> simp

theorem finishJob_processed (s : RunSt) :
    (finishJob s).job.processed_pages = s.job.processed_pages := by
  simp only [finishJob, setPct]
  split <;> simp

theorem finishJob_total (s : RunSt) :
    (finishJob s).job.total_pages = s.job.total_pages := by
  simp only [finishJob, setPct]
  split <;> simp

theorem finishJob_checks (s : RunSt) : (finishJob s).checks = s.checks := by
  simp only [finishJob, setPct]
  split <;> simp

theorem finishJob_files (s : RunSt) : (finishJob s).files = s.files := by
  simp only [finishJob, setPct]
  split <;> simp

theorem finishJob_error (s : RunSt) : (finishJob s).job.error = s.job.error := by
  simp only [finishJob, setPct]
  split <;> simp

theorem finishJob_pctOk (s : RunSt) (h : pctOk s) : pctOk (finishJob s) := by
  unfold pctOk at *
  intro v hv
  have hv2 : v ∈ s.pctTrace ++ [(100 : ℤ)] := by
    revert hv
    simp only [finishJob, setPct]
    split <;> (intro hv; simpa using hv)
  rcases List.mem_append.mp hv2 with h1 | h1
  · exact h v h1
  · simp at h1
    subst h1
    norm_num

theorem handleError_status (m : String) (s : RunSt) :
    (handleError m s).job.status = Status.error := by
  simp [handleError, setPct]

theorem handleError_error (m : String) (s : RunSt) :
    (handleError m s).job.error = some m := by
  simp [handleError, setPct]

theorem handleError_progress (m : String) (s : RunSt) :
    (handleError m s).job.progress_pct = safe_pct ((s.job.progress_pct : ℚ)) := by
  simp [handleError, setPct]

theorem handleError_checks (m : String) (s : RunSt) :
    (handleError m s).checks = s.checks := by
  simp [handleError, setPct]

theorem handleError_pctOk (m : String) (s : RunSt) (h : pctOk s) :
    pctOk (handleError m s) := by
  unfold pctOk at *
  intro v hv
  have hv2 : v ∈ s.pctTrace ++ [safe_pct ((s.job.progress_pct : ℚ))] := by
    revert hv
    simp only [handleError, setPct]
    intro hv
    simpa using hv
  rcases List.mem_append.mp hv2 with h1 | h1
  · exact h v h1
  · simp at h1
    subst h1
    exact ⟨safe_pct_nonneg _, safe_pct_le _⟩

theorem pctOk_initial : pctOk initialRunSt := by
  unfold pctOk initialRunSt
  intro v hv
  simp at hv
  subst hv
  norm_num

theorem runBody_nonempty (inp : JobInput) (s0 : RunSt) (h : ¬ inp.docs.isEmpty) :
    runBody inp s0 = docsLoop inp.cancelAt inp.docs (prologueState inp s0) := by
  simp [runBody, h]

theorem runBody_empty (inp : JobInput) (s0 : RunSt) (h : inp.docs.isEmpty) :
    runBody inp s0 = .exn ("No PDFs found in upload.") (startState inp s0) := by
  simp [runBody, h]

theorem processPage_files_ok (docName docStem : String) (numPages pageNum : Nat)
    (v : Verdict) (s : RunSt) :
    (processPage docName docStem numPages pageNum (.ok v) s).files =
      s.files ++ [docStem ::
        (process_job_filing (v.is_receipt.getD false) (v.has_stamp.getD false)).1
        ++ [("page_") ++ toString pageNum ++ (".png")]] := by
  simp only [processPage, setPct]
  (repeat' split) <;> simp

theorem processPage_rows_ok (docName docStem : String) (numPages pageNum : Nat)
    (v : Verdict) (s : RunSt) :
    (processPage docName docStem numPages pageNum (.ok v) s).all_rows =
      s.all_rows ++ [filedRow process_job_filing docName pageNum v] := by
  simp only [processPage, setPct, filedRow]
  (repeat' split) <;> simp

theorem filing_eq_spec_table (a b : Bool) : process_job_filing a b = specFilingTable a b := by
  cases a <;> cases b <;> rfl

/-- C1: for every page whose oracle call succeeds, the worker files the
page image and records the status label exactly per the spec 4.2 decision
table, with missing is_receipt or has_stamp fields defaulting to false:
the written file path and the appended classification row of the per-page
step both follow specFilingTable applied to the defaulted booleans. -/
theorem C1_filing_per_spec_table (docName docStem : String) (numPages pageNum : Nat)
    (v : Verdict) (s : RunSt) :
    (processPage docName docStem numPages pageNum (.ok v) s).files =
      s.files ++ [docStem ::
        (specFilingTable (v.is_receipt.getD false) (v.has_stamp.getD false)).1
        ++ [("page_") ++ toString pageNum ++ (".png")]]
    ∧ (processPage docName docStem numPages pageNum (.ok v) s).all_rows =
      s.all_rows ++ [filedRow specFilingTable docName pageNum v] := by
  constructor
  · rw [processPage_files_ok, filing_eq_spec_table]
  · rw [processPage_rows_ok]
    unfold filedRow
    rw [filing_eq_spec_table]

/-- C5: for every page whose oracle call returns an error indicator, the
page is not written to any output directory and no CSV row is appended,
but processed_pages increments by exactly one and the step neither changes
the status nor records an error, so processing continues with the next
page. -/
theorem C5_oracle_error_isolation (docName docStem : String) (numPages pageNum : Nat)
    (msg : String) (s : RunSt) :
    (processPage docName docStem numPages pageNum (.err msg) s).files = s.files
    ∧ (processPage docName docStem numPages pageNum (.err msg) s).all_rows = s.all_rows
    ∧ (processPage docName docStem numPages pageNum (.err msg) s).job.processed_pages
        = s.job.processed_pages + 1
    ∧ (processPage docName docStem numPages pageNum (.err msg) s).job.status = s.job.status
    ∧ (processPage docName docStem numPages pageNum (.err msg) s).job.error = s.job.error
    ∧ (processPage docName docStem numPages pageNum (.err msg) s).csvFile = s.csvFile := by
  refine ⟨?_, ?_, ?_, ?_, ?_, ?_⟩ <;> (simp only [processPage, setPct]; (repeat' split) <;> simp)

/-- C10: the original single-script variant and the serving variant do
not assign the same destination directory and status label pair to any
verdict with is_receipt true: both file into the same directory, but the
single-script variant attaches the status label that the authoritative
table of the serving variant pairs with the opposite has_stamp value, so
its label and its directory are mutually swapped relative to that table. -/
theorem C10_label_directory_swap (has_stamp : Bool) :
    process_docs_filing true has_stamp ≠ process_job_filing true has_stamp
    ∧ (process_docs_filing true has_stamp).1 = (process_job_filing true has_stamp).1
    ∧ (process_docs_filing true has_stamp).2 = (specFilingTable true (!has_stamp)).2
    ∧ (process_docs_filing true has_stamp).1 = (specFilingTable true has_stamp).1
    ∧ process_job_filing true has_stamp = specFilingTable true has_stamp := by
  cases has_stamp <;> refine ⟨?_, ?_, ?_, ?_, ?_⟩ <;> decide

/-- C2 evidence of the code bug: on a two-document job with page-count
pre-estimation unavailable and one page per document, the finished job has
total_pages 1 but processed_pages 2, so processed_pages exceeds the known
total_pages. -/
theorem C2_processed_exceeds_total :
    (process_job c2Input).job.status = Status.done
    ∧ (process_job c2Input).job.total_pages = 1
    ∧ (process_job c2Input).job.processed_pages = 2
    ∧ (process_job c2Input).job.total_pages < (process_job c2Input).job.processed_pages := by
  refine ⟨?_, ?_, ?_, ?_⟩ <;> decide

/-- C3 evidence of the code bug: on a job with a one-page document
followed by a three-page document and no pre-count, the finished job has
total_pages 1 while the documents render 4 pages in total: only the first
document page count is ever added because the update is guarded by
total_pages == 0. -/
theorem C3_only_first_document_counted :
    (process_job c3Input).job.status = Status.done
    ∧ (process_job c3Input).job.total_pages = 1
    ∧ totalActualPages c3Input.docs = 4
    ∧ (process_job c3Input).job.total_pages ≠ totalActualPages c3Input.docs := by
  refine ⟨?_, ?_, ?_, ?_⟩ <;> decide

/-- C4 counterexample: a job whose total page count is determinable
upfront (and accurate) but whose single page yields a null analysis
reaches done with processed_pages 0 different from total_pages 1, so the
claim as stated, including degenerate null verdicts, is false. -/
theorem C4_null_verdict_counterexample :
    (process_job c4NullInput).job.status = Status.done
    ∧ 0 < preEstimate c4NullInput
    ∧ preEstimate c4NullInput = totalActualPages c4NullInput.docs
    ∧ (process_job c4NullInput).job.total_pages = 1
    ∧ (process_job c4NullInput).job.processed_pages = 0
    ∧ (process_job c4NullInput).job.processed_pages ≠ (process_job c4NullInput).job.total_pages := by
  refine ⟨?_, ?_, ?_, ?_, ?_, ?_⟩ <;> decide

theorem preEstimate_pos_nonempty (inp : JobInput) (h : 0 < preEstimate inp) :
    ¬ inp.docs.isEmpty := by
  intro hemp
  rw [List.isEmpty_iff] at hemp
  simp [preEstimate, hemp] at h

/-- C4 amended: for every job reaching done whose total page count was
determinable upfront and matches the rendered page counts, and in which no
page yields a null analysis (error indicators are allowed), processed
pages equal total pages at completion. -/
theorem C4_done_processed_eq_total (inp : JobInput)
    (hpre : 0 < preEstimate inp)
    (hacc : preEstimate inp = totalActualPages inp.docs)
    (hnn : noNullPages inp.docs)
    (hdone : (process_job inp).job.status = Status.done) :
    (process_job inp).job.processed_pages = (process_job inp).job.total_pages := by
  have hne := preEstimate_pos_nonempty inp hpre
  have hpt : (prologueState inp initialRunSt).job.total_pages = preEstimate inp := by
    rw [prologue_total]
    simp [hpre]
  have hpp : (prologueState inp initialRunSt).job.processed_pages = 0 := by
    rw [prologue_processed]
    rfl
  cases hdl : docsLoop inp.cancelAt inp.docs (prologueState inp initialRunSt) with
  | ret s1 =>
    have hpj0 : process_job inp = s1 := by
      unfold process_job
      rw [runBody_nonempty _ _ hne, hdl]
    rw [hpj0] at hdone
    rw [docsLoop_ret_status _ _ _ _ hdl] at hdone
    cases hdone
  | exn m s1 =>
    have hpj0 : process_job inp = handleError m s1 := by
      unfold process_job
      rw [runBody_nonempty _ _ hne, hdl]
    rw [hpj0] at hdone
    rw [handleError_status] at hdone
    cases hdone
  | cont s1 =>
    have hpj0 : process_job inp = finishJob s1 := by
      unfold process_job
      rw [runBody_nonempty _ _ hne, hdl]
    rw [hpj0, finishJob_processed, finishJob_total]
    have htne : (prologueState inp initialRunSt).job.total_pages ≠ 0 := by omega
    have hp := docsLoop_cont_processed inp.cancelAt inp.docs _ s1 hnn htne hdl
    have ht := docsLoop_state_total_ne inp.cancelAt inp.docs _ htne
    rw [hdl] at ht
    simp only [Flow.state] at ht
    rw [hp, ht, hpt, hpp, hacc]
    omega

theorem C4_witness_aux : noNullPages c4OkInput.docs := by
  intro d hd ps hps
  simp only [c4OkInput] at hd
  rcases List.mem_singleton.mp hd with rfl
  simp only [docErrOk] at hps
  cases hps
  decide

/-- Witness for the amended C4 at a concrete job: one two-page document
with accurate pre-count, one page erroring and one classifying. -/
theorem C4_done_processed_eq_total_witness :
    0 < preEstimate c4OkInput
    ∧ preEstimate c4OkInput = totalActualPages c4OkInput.docs
    ∧ (process_job c4OkInput).job.status = Status.done
    ∧ (process_job c4OkInput).job.processed_pages = (process_job c4OkInput).job.total_pages := by
  refine ⟨by decide, by decide, by decide, ?_⟩
  exact C4_done_processed_eq_total c4OkInput (by decide) (by decide) C4_witness_aux (by decide)

theorem Inv.pct {s s' : RunSt} (h : Inv s s') : pctOk s → pctOk s' :=
  h.2.2.2.2.2.2.2.2.2.2

theorem startState_inv (inp : JobInput) (s0 : RunSt) : Inv s0 (startState inp s0) := by
  unfold startState
  exact Inv.trans (Inv.trans (Inv_startUpd s0)
    (Inv_setPct_ok _ 1 (by norm_num) (by norm_num))) (Inv_rlog _ _)

theorem startState_checks (inp : JobInput) (s0 : RunSt) :
    (startState inp s0).checks = s0.checks := by
  simp [startState, setPct]

theorem runBody_state_pctOk (inp : JobInput) : pctOk (runBody inp initialRunSt).state := by
  cases hemp : inp.docs.isEmpty with
  | true =>
    rw [runBody_empty _ _ hemp]
    exact Inv.pct (startState_inv inp initialRunSt) pctOk_initial
  | false =>
    rw [runBody_nonempty _ _ (by rw [hemp]; exact Bool.false_ne_true)]
    exact Inv.pct (Inv.trans (prologue_inv inp initialRunSt)
      (docsLoop_state_inv inp.cancelAt inp.docs _)) pctOk_initial

theorem process_job_pctOk (inp : JobInput) : pctOk (process_job inp) := by
  have hb := runBody_state_pctOk inp
  unfold process_job
  cases hr : runBody inp initialRunSt with
  | cont s =>
    rw [hr] at hb
    exact finishJob_pctOk s hb
  | ret s =>
    rw [hr] at hb
    exact hb
  | exn m s =>
    rw [hr] at hb
    exact handleError_pctOk m s hb

/-- C7: at every observable snapshot of every job the progress percentage
lies between 0 and 100; safe_pct is exactly floor of the clamp of its
argument to that interval; and whenever total_pages is positive the
per-page step assigns safe_pct of processed_pages over total_pages times
100 to the progress. -/
theorem C7_progress_bounds_and_formula :
    (∀ inp : JobInput, ∀ v ∈ (process_job inp).pctTrace, 0 ≤ v ∧ v ≤ 100)
    ∧ (∀ x : ℚ, safe_pct x = Int.floor (max 0 (min 100 x)))
    ∧ (∀ (dn ds : String) (np pn : Nat) (res : OracleResult) (s : RunSt),
        0 < s.job.total_pages →
        ∃ rest, (processPage dn ds np pn res s).pctTrace
          = s.pctTrace
            ++ [safe_pct ((s.job.processed_pages : ℚ) / (s.job.total_pages : ℚ) * 100)]
            ++ rest) := by
  refine ⟨fun inp => process_job_pctOk inp, safe_pct_clamp, ?_⟩
  intro dn ds np pn res s h
  cases res with
  | null =>
    refine ⟨[], ?_⟩
    simp [processPage, setPct, h]
  | err m =>
    refine ⟨[], ?_⟩
    simp [processPage, setPct, h]
  | ok v =>
    refine ⟨[safe_pct (((s.job.processed_pages : ℚ) + 1) / (s.job.total_pages : ℚ) * 100)], ?_⟩
    simp [processPage, setPct, h]

/-- Witness for C7 at a concrete job and trace value. -/
theorem C7_progress_bounds_witness :
    ((0 : ℤ) ∈ (process_job c7Input).pctTrace)
    ∧ (0 ≤ (0 : ℤ) ∧ (0 : ℤ) ≤ 100) :=
  ⟨by decide, C7_progress_bounds_and_formula.1 c7Input 0 (by decide)⟩

/-- C8: whenever the worker body raises an unexpected exception, the
top-level handler sets status error, records the exception text in the
error field, sets the Error message, and reassigns progress_pct through
safe_pct, leaving it unchanged whenever it was already in the valid
range. -/
theorem C8_top_level_handler (inp : JobInput) (msg : String) (s : RunSt)
    (h : runBody inp initialRunSt = .exn msg s) :
    (process_job inp).job.status = Status.error
    ∧ (process_job inp).job.error = some msg
    ∧ (process_job inp).job.message = "Error"
    ∧ (process_job inp).job.progress_pct = safe_pct ((s.job.progress_pct : ℚ))
    ∧ (0 ≤ s.job.progress_pct → s.job.progress_pct ≤ 100 →
        (process_job inp).job.progress_pct = s.job.progress_pct) := by
  have hpj : process_job inp = handleError msg s := by
    unfold process_job
    rw [h]
  rw [hpj]
  refine ⟨handleError_status _ _, handleError_error _ _,
    by simp [handleError, setPct], handleError_progress _ _, ?_⟩
  intro h0 h1
  rw [handleError_progress, safe_pct_int _ h0 h1]

/-- Witness for C8: a job whose only document raises while rendering. -/
theorem C8_top_level_handler_witness :
    runBody c8Input initialRunSt = Flow.exn ("poppler exploded") c8ExnState
    ∧ (process_job c8Input).job.status = Status.error
    ∧ (process_job c8Input).job.error = some ("poppler exploded")
    ∧ (process_job c8Input).job.progress_pct = 1 := by
  have h : runBody c8Input initialRunSt = Flow.exn ("poppler exploded") c8ExnState := by decide
  have hc := C8_top_level_handler c8Input ("poppler exploded") c8ExnState h
  exact ⟨h, hc.1, hc.2.1, by rw [hc.2.2.2.2 (by decide) (by decide)]; decide⟩

theorem handleError_files (m : String) (s : RunSt) : (handleError m s).files = s.files := by
  simp [handleError, setPct]

theorem process_job_files_eq (inp : JobInput) (h : ¬ inp.docs.isEmpty) :
    (process_job inp).files
      = (docsLoop inp.cancelAt inp.docs (prologueState inp initialRunSt)).state.files := by
  unfold process_job
  rw [runBody_nonempty _ _ h]
  cases hdl : docsLoop inp.cancelAt inp.docs (prologueState inp initialRunSt) with
  | cont s1 => exact finishJob_files s1
  | ret s1 => rfl
  | exn m s1 => exact handleError_files m s1

/-- C6: with cancellation requested from boundary check t on, a cancelled
job has no CSV contents or path and no zip archives or paths, and its
files are a prefix of the files of the same job run without cancellation;
a job can only finish done if it performed no boundary check at or after
t; and if it performed one, its status is cancelled, never done. -/
theorem C6_cancellation (inp : JobInput) (t : Nat) (hc : inp.cancelAt = some t) :
    ((process_job inp).job.status = Status.cancelled →
      (process_job inp).csvFile = none
      ∧ (process_job inp).job.csv_path = none
      ∧ (process_job inp).zipFiles = []
      ∧ (process_job inp).job.zip_all = none
      ∧ (process_job inp).job.zip_receipts_unstamped = none
      ∧ (process_job inp).job.zip_receipts_stamped = none
      ∧ (process_job inp).job.zip_credit_notes = none
      ∧ ∃ l, (process_job { inp with cancelAt := none }).files = (process_job inp).files ++ l)
    ∧ ((process_job inp).job.status = Status.done → (process_job inp).checks ≤ t)
    ∧ (t < (process_job inp).checks → (process_job inp).job.status = Status.cancelled) := by
  cases hemp : inp.docs.isEmpty with
  | true =>
    have hpj : process_job inp = handleError ("No PDFs found in upload.") (startState inp initialRunSt) := by
      unfold process_job
      rw [runBody_empty _ _ hemp]
    have hst : (process_job inp).job.status = Status.error := by
      rw [hpj, handleError_status]
    have hck : (process_job inp).checks = 0 := by
      rw [hpj, handleError_checks, startState_checks]
      rfl
    refine ⟨?_, ?_, ?_⟩
    · intro h
      rw [hst] at h
      cases h
    · intro h
      rw [hst] at h
      cases h
    · intro h
      rw [hck] at h
      omega
  | false =>
    have hne : ¬ inp.docs.isEmpty := by rw [hemp]; exact Bool.false_ne_true
    have hck0 : (prologueState inp initialRunSt).checks = 0 := by
      rw [prologue_checks]
      rfl
    cases hdl : docsLoop inp.cancelAt inp.docs (prologueState inp initialRunSt) with
    | cont s1 =>
      have hpj : process_job inp = finishJob s1 := by
        unfold process_job
        rw [runBody_nonempty _ _ hne, hdl]
      have hst : (process_job inp).job.status = Status.done := by
        rw [hpj, finishJob_status]
      have hckle : s1.checks ≤ t := by
        rw [hc] at hdl
        exact docsLoop_cont_checks_le t inp.docs _ s1 (by omega) hdl
      refine ⟨?_, ?_, ?_⟩
      · intro h
        rw [hst] at h
        cases h
      · intro _
        rw [hpj, finishJob_checks]
        exact hckle
      · intro h
        rw [hpj, finishJob_checks] at h
        omega
    | exn m s1 =>
      have hpj : process_job inp = handleError m s1 := by
        unfold process_job
        rw [runBody_nonempty _ _ hne, hdl]
      have hst : (process_job inp).job.status = Status.error := by
        rw [hpj, handleError_status]
      have hckle : s1.checks ≤ t := by
        rw [hc] at hdl
        exact docsLoop_exn_checks_le t inp.docs _ s1 m (by omega) hdl
      refine ⟨?_, ?_, ?_⟩
      · intro h
        rw [hst] at h
        cases h
      · intro h
        rw [hst] at h
        cases h
      · intro h
        rw [hpj, handleError_checks] at h
        omega
    | ret s1 =>
      have hpj : process_job inp = s1 := by
        unfold process_job
        rw [runBody_nonempty _ _ hne, hdl]
      have hst : (process_job inp).job.status = Status.cancelled := by
        rw [hpj]
        exact docsLoop_ret_status _ _ _ _ hdl
      have hInv : Inv initialRunSt s1 := by
        have h2 := docsLoop_state_inv inp.cancelAt inp.docs (prologueState inp initialRunSt)
        rw [hdl] at h2
        exact Inv.trans (prologue_inv inp initialRunSt) h2
      obtain ⟨hcsv, hzf, hcp, hza, hzru, hzrs, hzcn, _, _, _, _⟩ := hInv
      refine ⟨?_, ?_, ?_⟩
      · intro _
        refine ⟨by rw [hpj]; exact hcsv, by rw [hpj]; exact hcp, by rw [hpj]; exact hzf,
          by rw [hpj]; exact hza, by rw [hpj]; exact hzru, by rw [hpj]; exact hzrs,
          by rw [hpj]; exact hzcn, ?_⟩
        obtain ⟨l, hl⟩ := docsLoop_ret_none_files inp.cancelAt inp.docs _ s1 hdl
        refine ⟨l, ?_⟩
        rw [hpj]
        rw [process_job_files_eq { inp with cancelAt := none } hne]
        rw [prologue_cancel_none]
        exact hl
      · intro h
        rw [hst] at h
        cases h
      · intro _
        exact hst

/-- Witness for C6: cancellation requested before the first check. -/
theorem C6_cancellation_witness :
    c6Input.cancelAt = some 0
    ∧ (process_job c6Input).job.status = Status.cancelled
    ∧ (process_job c6Input).csvFile = none
    ∧ (process_job c6Input).zipFiles = []
    ∧ ∃ l, (process_job { c6Input with cancelAt := none }).files
        = (process_job c6Input).files ++ l := by
  have h := (C6_cancellation c6Input 0 rfl).1 (by decide)
  exact ⟨rfl, by decide, h.1, h.2.2.1, h.2.2.2.2.2.2.2⟩

/-- C9: the download endpoint returns a file exactly when the job exists,
its status is done, the kind is one of the five artifact kinds, and the
corresponding artifact path is set and exists on disk; every rejection is
not-found for an unknown job, an unknown kind or a missing file, or
not-ready for a job that is not done. -/
theorem C9_download_guarded (jobs : List (String × JobState)) (onDisk : List String → Bool)
    (job_id kind : String) :
    ((∃ p n, download jobs onDisk job_id kind = .ok p n) ↔
      (∃ job p, lookupJob jobs job_id = some job ∧ job.status = Status.done
        ∧ kind ∈ validKinds ∧ artifactField job kind = some p ∧ onDisk p = true))
    ∧ (∀ e, download jobs onDisk job_id kind = .fail e →
        (lookupJob jobs job_id = none ∧ e = .notFound ("Job not found"))
        ∨ (∃ job, lookupJob jobs job_id = some job ∧ job.status ≠ Status.done
            ∧ e = .badRequest ("Job not completed yet"))
        ∨ (∃ job, lookupJob jobs job_id = some job ∧ job.status = Status.done
            ∧ kind ∉ validKinds ∧ e = .notFound ("Unknown download type"))
        ∨ (∃ job, lookupJob jobs job_id = some job ∧ job.status = Status.done
            ∧ kind ∈ validKinds
            ∧ (artifactField job kind = none
               ∨ ∃ p, artifactField job kind = some p ∧ onDisk p = false)
            ∧ e = .notFound ("File not found"))) := by
  cases hlk : lookupJob jobs job_id with
  | none =>
    constructor
    · constructor
      · rintro ⟨p, n, hd⟩
        simp only [download, hlk] at hd
        cases hd
      · rintro ⟨job, p, hj, _⟩
        cases hj
    · intro e hd
      simp only [download, hlk] at hd
      cases hd
      exact Or.inl ⟨rfl, rfl⟩
  | some job =>
    by_cases hst : job.status = Status.done
    · simp only [download, hlk, hst, ne_eq, not_true_eq_false, if_false, reduceIte]
      by_cases h1 : kind = "all"
      · subst h1
        simp only [String.reduceEq, reduceIte]
        cases hza : job.zip_all with
        | none =>
          refine ⟨⟨?_, ?_⟩, ?_⟩
          · rintro ⟨p, n, hd⟩
            cases hd
          · rintro ⟨job2, p, hj, _, _, haf, _⟩
            cases hj
            simp only [artifactField, String.reduceEq, reduceIte, hza] at haf
            cases haf
          · intro e hd
            cases hd
            refine Or.inr (Or.inr (Or.inr ⟨job, rfl, hst, by decide, ?_, rfl⟩))
            exact Or.inl (by simp [artifactField, hza])
        | some p =>
          cases hod : onDisk p with
          | true =>
            refine ⟨⟨?_, ?_⟩, ?_⟩
            · rintro ⟨p2, n2, hd⟩
              exact ⟨job, p, rfl, hst, by decide, by simp [artifactField, hza], hod⟩
            · rintro ⟨job2, p2, hj, _, _, haf, hodisk⟩
              simp only [hod, reduceIte]
              exact ⟨p, "all_output.zip", rfl⟩
            · intro e hd
              simp only [hod, reduceIte] at hd
              cases hd
          | false =>
            refine ⟨⟨?_, ?_⟩, ?_⟩
            · rintro ⟨p2, n2, hd⟩
              simp only [hod, Bool.false_eq_true, reduceIte] at hd
              cases hd
            · rintro ⟨job2, p2, hj, _, _, haf, hodisk⟩
              cases hj
              simp only [artifactField, String.reduceEq, reduceIte, hza, Option.some.injEq] at haf
              rw [haf] at hod
              rw [hod] at hodisk
              cases hodisk
            · intro e hd
              simp only [hod, Bool.false_eq_true, reduceIte] at hd
              cases hd
              refine Or.inr (Or.inr (Or.inr ⟨job, rfl, hst, by decide, ?_, rfl⟩))
              exact Or.inr ⟨p, by simp [artifactField, hza], hod⟩
      · by_cases h2 : kind = "receipts_unstamped"
        · subst h2
          simp only [String.reduceEq, reduceIte]
          cases hza : job.zip_receipts_unstamped with
          | none =>
            refine ⟨⟨?_, ?_⟩, ?_⟩
            · rintro ⟨p, n, hd⟩
              cases hd
            · rintro ⟨job2, p, hj, _, _, haf, _⟩
              cases hj
              simp only [artifactField, String.reduceEq, reduceIte, hza] at haf
              cases haf
            · intro e hd
              cases hd
              refine Or.inr (Or.inr (Or.inr ⟨job, rfl, hst, by decide, ?_, rfl⟩))
              exact Or.inl (by simp [artifactField, hza])
          | some p =>
            cases hod : onDisk p with
            | true =>
              refine ⟨⟨?_, ?_⟩, ?_⟩
              · rintro ⟨p2, n2, hd⟩
                exact ⟨job, p, rfl, hst, by decide, by simp [artifactField, hza], hod⟩
              · rintro ⟨job2, p2, hj, _, _, haf, hodisk⟩
                simp only [hod, reduceIte]
                exact ⟨p, "receipts_unstamped.zip", rfl⟩
              · intro e hd
                simp only [hod, reduceIte] at hd
                cases hd
            | false =>
              refine ⟨⟨?_, ?_⟩, ?_⟩
              · rintro ⟨p2, n2, hd⟩
                simp only [hod, Bool.false_eq_true, reduceIte] at hd
                cases hd
              · rintro ⟨job2, p2, hj, _, _, haf, hodisk⟩
                cases hj
                simp only [artifactField, String.reduceEq, reduceIte, hza, Option.some.injEq] at haf
                rw [haf] at hod
                rw [hod] at hodisk
                cases hodisk
              · intro e hd
                simp only [hod, Bool.false_eq_true, reduceIte] at hd
                cases hd
                refine Or.inr (Or.inr (Or.inr ⟨job, rfl, hst, by decide, ?_, rfl⟩))
                exact Or.inr ⟨p, by simp [artifactField, hza], hod⟩
        · by_cases h3 : kind = "receipts_stamped"
          · subst h3
            simp only [String.reduceEq, reduceIte]
            cases hza : job.zip_receipts_stamped with
            | none =>
              refine ⟨⟨?_, ?_⟩, ?_⟩
              · rintro ⟨p, n, hd⟩
                cases hd
              · rintro ⟨job2, p, hj, _, _, haf, _⟩
                cases hj
                simp only [artifactField, String.reduceEq, reduceIte, hza] at haf
                cases haf
              · intro e hd
                cases hd
                refine Or.inr (Or.inr (Or.inr ⟨job, rfl, hst, by decide, ?_, rfl⟩))
                exact Or.inl (by simp [artifactField, hza])
            | some p =>
              cases hod : onDisk p with
              | true =>
                refine ⟨⟨?_, ?_⟩, ?_⟩
                · rintro ⟨p2, n2, hd⟩
                  exact ⟨job, p, rfl, hst, by decide, by simp [artifactField, hza], hod⟩
                · rintro ⟨job2, p2, hj, _, _, haf, hodisk⟩
                  simp only [hod, reduceIte]
                  exact ⟨p, "receipts_stamped.zip", rfl⟩
                · intro e hd
                  simp only [hod, reduceIte] at hd
                  cases hd
              | false =>
                refine ⟨⟨?_, ?_⟩, ?_⟩
                · rintro ⟨p2, n2, hd⟩
                  simp only [hod, Bool.false_eq_true, reduceIte] at hd
                  cases hd
                · rintro ⟨job2, p2, hj, _, _, haf, hodisk⟩
                  cases hj
                  simp only [artifactField, String.reduceEq, reduceIte, hza, Option.some.injEq] at haf
                  rw [haf] at hod
                  rw [hod] at hodisk
                  cases hodisk
                · intro e hd
                  simp only [hod, Bool.false_eq_true, reduceIte] at hd
                  cases hd
                  refine Or.inr (Or.inr (Or.inr ⟨job, rfl, hst, by decide, ?_, rfl⟩))
                  exact Or.inr ⟨p, by simp [artifactField, hza], hod⟩
          · by_cases h4 : kind = "credit_notes"
            · subst h4
              simp only [String.reduceEq, reduceIte]
              cases hza : job.zip_credit_notes with
              | none =>
                refine ⟨⟨?_, ?_⟩, ?_⟩
                · rintro ⟨p, n, hd⟩
                  cases hd
                · rintro ⟨job2, p, hj, _, _, haf, _⟩
                  cases hj
                  simp only [artifactField, String.reduceEq, reduceIte, hza] at haf
                  cases haf
                · intro e hd
                  cases hd
                  refine Or.inr (Or.inr (Or.inr ⟨job, rfl, hst, by decide, ?_, rfl⟩))
                  exact Or.inl (by simp [artifactField, hza])
              | some p =>
                cases hod : onDisk p with
                | true =>
                  refine ⟨⟨?_, ?_⟩, ?_⟩
                  · rintro ⟨p2, n2, hd⟩
                    exact ⟨job, p, rfl, hst, by decide, by simp [artifactField, hza], hod⟩
                  · rintro ⟨job2, p2, hj, _, _, haf, hodisk⟩
                    simp only [hod, reduceIte]
                    exact ⟨p, "credit_notes.zip", rfl⟩
                  · intro e hd
                    simp only [hod, reduceIte] at hd
                    cases hd
                | false =>
                  refine ⟨⟨?_, ?_⟩, ?_⟩
                  · rintro ⟨p2, n2, hd⟩
                    simp only [hod, Bool.false_eq_true, reduceIte] at hd
                    cases hd
                  · rintro ⟨job2, p2, hj, _, _, haf, hodisk⟩
                    cases hj
                    simp only [artifactField, String.reduceEq, reduceIte, hza, Option.some.injEq] at haf
                    rw [haf] at hod
                    rw [hod] at hodisk
                    cases hodisk
                  · intro e hd
                    simp only [hod, Bool.false_eq_true, reduceIte] at hd
                    cases hd
                    refine Or.inr (Or.inr (Or.inr ⟨job, rfl, hst, by decide, ?_, rfl⟩))
                    exact Or.inr ⟨p, by simp [artifactField, hza], hod⟩
            · by_cases h5 : kind = "csv"
              · subst h5
                simp only [String.reduceEq, reduceIte]
                cases hza : job.csv_path with
                | none =>
                  refine ⟨⟨?_, ?_⟩, ?_⟩
                  · rintro ⟨p, n, hd⟩
                    cases hd
                  · rintro ⟨job2, p, hj, _, _, haf, _⟩
                    cases hj
                    simp only [artifactField, String.reduceEq, reduceIte, hza] at haf
                    cases haf
                  · intro e hd
                    cases hd
                    refine Or.inr (Or.inr (Or.inr ⟨job, rfl, hst, by decide, ?_, rfl⟩))
                    exact Or.inl (by simp [artifactField, hza])
                | some p =>
                  cases hod : onDisk p with
                  | true =>
                    refine ⟨⟨?_, ?_⟩, ?_⟩
                    · rintro ⟨p2, n2, hd⟩
                      exact ⟨job, p, rfl, hst, by decide, by simp [artifactField, hza], hod⟩
                    · rintro ⟨job2, p2, hj, _, _, haf, hodisk⟩
                      simp only [hod, reduceIte]
                      exact ⟨p, "classification_log.csv", rfl⟩
                    · intro e hd
                      simp only [hod, reduceIte] at hd
                      cases hd
                  | false =>
                    refine ⟨⟨?_, ?_⟩, ?_⟩
                    · rintro ⟨p2, n2, hd⟩
                      simp only [hod, Bool.false_eq_true, reduceIte] at hd
                      cases hd
                    · rintro ⟨job2, p2, hj, _, _, haf, hodisk⟩
                      cases hj
                      simp only [artifactField, String.reduceEq, reduceIte, hza, Option.some.injEq] at haf
                      rw [haf] at hod
                      rw [hod] at hodisk
                      cases hodisk
                    · intro e hd
                      simp only [hod, Bool.false_eq_true, reduceIte] at hd
                      cases hd
                      refine Or.inr (Or.inr (Or.inr ⟨job, rfl, hst, by decide, ?_, rfl⟩))
                      exact Or.inr ⟨p, by simp [artifactField, hza], hod⟩
              · simp only [h1, h2, h3, h4, h5, reduceIte]
                refine ⟨⟨?_, ?_⟩, ?_⟩
                · rintro ⟨p, n, hd⟩
                  cases hd
                · rintro ⟨job2, p, hj, _, hmem, _⟩
                  cases hj
                  simp [validKinds, h1, h2, h3, h4, h5] at hmem
                · intro e hd
                  cases hd
                  refine Or.inr (Or.inr (Or.inl ⟨job, rfl, hst, ?_, rfl⟩))
                  simp [validKinds, h1, h2, h3, h4, h5]
    · simp only [download, hlk, hst, ne_eq, not_false_eq_true, if_true, reduceIte]
      refine ⟨⟨?_, ?_⟩, ?_⟩
      · rintro ⟨p, n, hd⟩
        cases hd
      · rintro ⟨job2, p, hj, hdone, _⟩
        cases hj
        exact absurd hdone hst
      · intro e hd
        cases hd
        exact Or.inr (Or.inl ⟨job, rfl, hst, rfl⟩)

/-- Witness for C9 at a concrete store with one completed job. -/
theorem C9_download_guarded_witness :
    ∃ p n, download [("j", c9DoneJob)] (fun _ => true) ("j") ("csv") = DownloadResult.ok p n := by
  refine (C9_download_guarded [("j", c9DoneJob)] (fun _ => true) "j" "csv").1.mpr ?_
  exact ⟨c9DoneJob, ["classification_log.csv"], by decide, by decide, by decide, by decide, rfl⟩

end DocReader
